import Mathlib

/-!
Verification of the configuration-integrity and fallback-resolution core of the
`energy-calculators` repository.

The definitions below are a shallow embedding of the JavaScript sources:

* `netlify/functions/_lib/geo_config_hash.js` — canonical serialization and
  SHA-256 content hashing (`sha256`, `hashStringMap`, `hashChainMap`,
  `firstNSortedLinesFromStringMap`, `firstNSortedLinesFromChainMap`);
* `netlify/functions/_lib/config-validators.js` — the reference-document
  validators (`validateGeoAcceptListsV1`, `validateGeoFallbackMapV1`,
  `deriveGeoUniverseFromDuoareaMapping`, `sortedListHash`, `mappingHash`);
* `netlify/functions/energy-prices-latest-with-fallback.mjs` — the fallback
  resolution engine (`kFuelPeriodGeo`, `stableRowSort`, the index build,
  combo enumeration and the fill loop, here `buildIndex`, `buildCombos`,
  `fillRow`, `resolveRows`).

Modelling conventions:
* JS strings are Lean `String`; the JS `<` comparison and the default
  `Array.prototype.sort()` comparison are modelled by `jsLt`, a lexicographic
  comparison of code points (they agree for all strings of BMP characters,
  which covers every string these configs and rows contain).
* `Array.prototype.sort` (with or without comparator) is modelled by
  `stableSort`, a stable insertion sort, matching the ECMAScript requirement
  that `sort` be stable.
* JS objects whose keys are looked up / enumerated are modelled as association
  lists in insertion order (`Object.keys` = `map Prod.fst`, property access =
  `List.lookup`); JSON objects never carry duplicate keys, so theorems that
  need it take a `Nodup` hypothesis on the key list.
* JS numbers used as prices are modelled as `Option Int` — the engine never
  computes with a price, it only tests `price !== null && price !== undefined`
  (`Option.isSome`) and copies the value, so the carrier type is irrelevant.
* Row fields that can be `null`/absent and are only tested for truthiness
  (`fuel`, `period`, `geo_code`, `dataset`, `sector`, `price_units`,
  `source_route`, `source_series`) are modelled as `String` with `""`
  standing for the falsy values (`""`/`null`/`undefined` collapse).
* Fail-fast `throw new Error(msg)` validation is modelled as
  `Except String α` with the exact message strings of the source.
-/

namespace EnergyCalculators

/-! ### Stable sort (model of `Array.prototype.sort`)

`stableInsert` places an element after every already-placed element that
compares `le` to it, so `stableSort` processes the array left to right and
is stable, as ECMAScript requires of `Array.prototype.sort`. -/

def stableInsert {α : Type} (le : α → α → Bool) (x : α) : List α → List α
  | [] => [x]
  | y :: ys => if le y x then y :: stableInsert le x ys else x :: y :: ys

def stableSortAux {α : Type} (le : α → α → Bool) : List α → List α → List α
  | acc, [] => acc
  | acc, x :: xs => stableSortAux le (stableInsert le x acc) xs

def stableSort {α : Type} (le : α → α → Bool) (l : List α) : List α :=
  stableSortAux le [] l

/-! ### JS string comparison

`charListLt` is the lexicographic code-point comparison of character lists;
`jsLt a b` models the JS expression `a < b` on strings, and `strLeB` is the
ordering realised by the default (comparator-less) `Array.prototype.sort`. -/

def charListLt : List Char → List Char → Bool
  | [], [] => false
  | [], _ :: _ => true
  | _ :: _, [] => false
  | c :: cs, d :: ds =>
    if c.toNat < d.toNat then true
    else if d.toNat < c.toNat then false
    else charListLt cs ds

def jsLt (a b : String) : Bool := charListLt a.data b.data

def strLeB (a b : String) : Bool := !(jsLt b a)

def jsSortStrings (l : List String) : List String := stableSort strLeB l

/-! ### SHA-256 (model of node `crypto.createHash("sha256")`, hex digest)

A byte is a `Nat` below 256 and a word a `Nat` below `M32 = 2 ^ 32`; all word
arithmetic is reduced `% M32` exactly where 32-bit overflow occurs. -/

def M32 : Nat := 4294967296

def utf8Char (c : Char) : List Nat :=
  let n := c.toNat
  if n < 128 then [n]
  else if n < 2048 then [192 + n / 64, 128 + n % 64]
  else if n < 65536 then [224 + n / 4096, 128 + (n / 64) % 64, 128 + n % 64]
  else [240 + n / 262144, 128 + (n / 4096) % 64, 128 + (n / 64) % 64, 128 + n % 64]

def utf8Bytes (s : String) : List Nat := s.data.flatMap utf8Char

def rotr (n x : Nat) : Nat := ((x >>> n) ||| (x <<< (32 - n))) % M32

def bsig0 (x : Nat) : Nat := (rotr 2 x) ^^^ (rotr 13 x) ^^^ (rotr 22 x)
def bsig1 (x : Nat) : Nat := (rotr 6 x) ^^^ (rotr 11 x) ^^^ (rotr 25 x)
def ssig0 (x : Nat) : Nat := (rotr 7 x) ^^^ (rotr 18 x) ^^^ (x >>> 3)
def ssig1 (x : Nat) : Nat := (rotr 17 x) ^^^ (rotr 19 x) ^^^ (x >>> 10)

def shaK : List Nat :=
  [1116352408, 1899447441, 3049323471, 3921009573, 961987163, 1508970993,
   2453635748, 2870763221, 3624381080, 310598401, 607225278, 1426881987,
   1925078388, 2162078206, 2614888103, 3248222580, 3835390401, 4022224774,
   264347078, 604807628, 770255983, 1249150122, 1555081692, 1996064986,
   2554220882, 2821834349, 2952996808, 3210313671, 3336571891, 3584528711,
   113926993, 338241895, 666307205, 773529912, 1294757372, 1396182291,
   1695183700, 1986661051, 2177026350, 2456956037, 2730485921, 2820302411,
   3259730800, 3345764771, 3516065817, 3600352804, 4094571909, 275423344,
   430227734, 506948616, 659060556, 883997877, 958139571, 1322822218,
   1537002063, 1747873779, 1955562222, 2024104815, 2227730452, 2361852424,
   2428436474, 2756734187, 3204031479, 3329325298]

def shaH0 : List Nat :=
  [1779033703, 3144134277, 1013904242, 2773480762,
   1359893119, 2600822924, 528734635, 1541459225]

def padMsg (msg : List Nat) : List Nat :=
  let len := msg.length
  let zeros := (119 - len % 64) % 64
  let bitLen := len * 8
  msg ++ [128] ++ List.replicate zeros 0 ++
    [bitLen / 2 ^ 56 % 256, bitLen / 2 ^ 48 % 256, bitLen / 2 ^ 40 % 256, bitLen / 2 ^ 32 % 256,
     bitLen / 2 ^ 24 % 256, bitLen / 2 ^ 16 % 256, bitLen / 2 ^ 8 % 256, bitLen % 256]

def toChunksAux : Nat → List Nat → List (List Nat)
  | 0, _ => []
  | _, [] => []
  | fuel + 1, a :: rest => ((a :: rest).take 64) :: toChunksAux fuel ((a :: rest).drop 64)

def toChunks (l : List Nat) : List (List Nat) := toChunksAux l.length l

def words16 : List Nat → List Nat
  | b0 :: b1 :: b2 :: b3 :: rest => (b0 * 2 ^ 24 + b1 * 2 ^ 16 + b2 * 2 ^ 8 + b3) :: words16 rest
  | _ => []

def extendW (ws : List Nat) : Nat → List Nat
  | 0 => ws
  | n + 1 =>
    let i := ws.length
    let w := (ws.getD (i - 16) 0 + ssig0 (ws.getD (i - 15) 0) +
              ws.getD (i - 7) 0 + ssig1 (ws.getD (i - 2) 0)) % M32
    extendW (ws ++ [w]) n

def chV (x y z : Nat) : Nat := (x &&& y) ^^^ ((x ^^^ 4294967295) &&& z)
def majV (x y z : Nat) : Nat := (x &&& y) ^^^ (x &&& z) ^^^ (y &&& z)

def roundStep (st : List Nat) (kw : Nat × Nat) : List Nat :=
  match st with
  | [a, b, c, d, e, f, g, h] =>
    let t1 := (h + bsig1 e + chV e f g + kw.1 + kw.2) % M32
    let t2 := (bsig0 a + majV a b c) % M32
    [(t1 + t2) % M32, a, b, c, (d + t1) % M32, e, f, g]
  | _ => st

def processChunk (hs : List Nat) (chunk : List Nat) : List Nat :=
  let ws := extendW (words16 chunk) 48
  let st := (ws.zip shaK).foldl roundStep hs
  (hs.zip st).map (fun p => (p.1 + p.2) % M32)

def hexChar (n : Nat) : Char := if n < 10 then Char.ofNat (48 + n) else Char.ofNat (87 + n)

def hexWord (x : Nat) : List Char := (List.range 8).map (fun i => hexChar (x >>> (28 - 4 * i) &&& 15))

def sha256 (s : String) : String :=
  let hs := (toChunks (padMsg (utf8Bytes s))).foldl processChunk shaH0
  String.mk (hs.flatMap hexWord)

/-! ### `geo_config_hash.js` -/

/-- Lines `"key=value"` of a string map, in entry order (before sorting). -/
def stringMapLines (mapObj : List (String × String)) : List String :=
  mapObj.map (fun p => p.1 ++ "=" ++ p.2)

/-- Lines `"key=v1>v2>...>vn"` of a chain map, in entry order. -/
def chainMapLines (chainObj : List (String × List String)) : List String :=
  chainObj.map (fun p => p.1 ++ "=" ++ String.intercalate (">") p.2)

/-- `hashStringMap` of `geo_config_hash.js`: sort the `"k=v"` lines, join with
newlines, SHA-256 the result. -/
def hashStringMap (mapObj : List (String × String)) : String :=
  sha256 (String.intercalate ("\n") (jsSortStrings (stringMapLines mapObj)))

/-- `hashChainMap` of `geo_config_hash.js`. -/
def hashChainMap (chainObj : List (String × List String)) : String :=
  sha256 (String.intercalate ("\n") (jsSortStrings (chainMapLines chainObj)))

/-- `firstNSortedLinesFromStringMap` of `geo_config_hash.js`. -/
def firstNSortedLinesFromStringMap (mapObj : List (String × String)) (n : Nat) : List String :=
  (jsSortStrings (stringMapLines mapObj)).take n

/-- `firstNSortedLinesFromChainMap` of `geo_config_hash.js`. -/
def firstNSortedLinesFromChainMap (chainObj : List (String × List String)) (n : Nat) : List String :=
  (jsSortStrings (chainMapLines chainObj)).take n

/-! ### `config-validators.js`

Checks that are purely about JSON dynamic typing (`assertExactKeys` on the
fixed top-level field names, `typeof` checks, `isPlainObject`,
`assertArrayOfStrings`) are discharged by the typed document structures below,
which have exactly the required fields at the required types; every data
dependent check is translated, in source order, with the source's message
strings. -/

deriving instance DecidableEq for Except

/-- `assert(condition, msg)` of `config-validators.js`: fail-fast with the
prefixed message. -/
def assertE (b : Bool) (msg : String) : Except String Unit :=
  if b then .ok () else .error ("CONFIG_VALIDATION_FAILED: " ++ msg)

/-- First-occurrence deduplication: the element sequence of a JS `Set` built
by inserting the list's elements left to right. -/
def dedupFirstAux (seen : List String) : List String → List String
  | [] => []
  | x :: xs => if x ∈ seen then dedupFirstAux seen xs else x :: dedupFirstAux (x :: seen) xs

def dedupFirst (l : List String) : List String := dedupFirstAux [] l

/-- Re-occurrences collected by `assertUniqueStringArray` (`dups` in the
source), in scan order. -/
def dupItemsAux (seen : List String) : List String → List String
  | [] => []
  | s :: rest => if s ∈ seen then s :: dupItemsAux seen rest else dupItemsAux (s :: seen) rest

def dupItems (l : List String) : List String := dupItemsAux [] l

/-- `assertUniqueStringArray` of `config-validators.js` (the
`assertArrayOfStrings` part is discharged by typing). -/
def assertUniqueStringArray (arr : List String) (context : String) : Except String Unit :=
  assertE (dupItems arr == [])
    (context ++ ": duplicate items not allowed: " ++ String.intercalate (", ") (dupItems arr))

/-- `sortedListHash` of `config-validators.js`: sort ASC, join with newlines,
sha256. -/
def sortedListHash (list : List String) : String :=
  sha256 (String.intercalate ("\n") (jsSortStrings list))

/-- `mappingHash` of `config-validators.js`: lines `"KEY=VALUE"` sorted by
key, joined, sha256. -/
def mappingHash (mapObj : List (String × String)) : String :=
  sha256 (String.intercalate ("\n")
    ((jsSortStrings (mapObj.map Prod.fst)).map
      (fun k => k ++ "=" ++ ((List.lookup k mapObj).getD ""))))

/-- `assertExactKeys` of `config-validators.js` applied to a key list: both
sides sorted, compared for exact equality. -/
def assertExactKeysList (keys allowedKeys : List String) (context : String) : Except String Unit :=
  let ks := jsSortStrings keys
  let allowed := jsSortStrings allowedKeys
  assertE (ks == allowed)
    (context ++ ": keys mismatch. got=[" ++ String.intercalate (",") ks ++
     "], expected=[" ++ String.intercalate (",") allowed ++ "]")

/-- One entry of `assertExpectedCounts` (`Number.isInteger` is the typed
`Int`, the `>= 0` requirement is kept). -/
def checkCountEntry (context name : String) (expected actual : Int) : Except String Unit := do
  assertE (0 ≤ expected) (context ++ ": expected_counts." ++ name ++ " must be nonnegative integer")
  assertE (actual == expected)
    (context ++ ": expected_counts." ++ name ++ " mismatch. got=" ++ toString actual ++
     ", expected=" ++ toString expected)

/-- One entry of `assertExpectedSortedFirstItems`: the expected prefix must
equal `actual.slice(0, expected.length)` elementwise. -/
def checkFirstItemsEntry (context name : String) (expectedFirst actualSorted : List String) :
    Except String Unit :=
  let actualFirst := actualSorted.take expectedFirst.length
  assertE (expectedFirst == actualFirst)
    (context ++ ": expected_sorted_first_items." ++ name ++ " mismatch. got=[" ++
     String.intercalate (",") actualFirst ++ "], expected=[" ++
     String.intercalate (",") expectedFirst ++ "]")

/-- One entry of `assertExpectedSetHashes` (the `typeof string` check is the
typed `String`). -/
def checkHashEntry (context name : String) (expectedHash actualHash : String) : Except String Unit :=
  assertE (actualHash == expectedHash)
    (context ++ ": expected_set_hashes." ++ name ++ " mismatch. got=" ++ actualHash ++
     ", expected=" ++ expectedHash)

/-- The per-entry key/value string checks on `duoarea_to_geo_code` (`typeof`
is typing; the emptiness requirement is data dependent). -/
def checkMappingEntries : List (String × String) → Except String Unit
  | [] => .ok ()
  | (k, v) :: rest => do
      assertE (k != "") ("geo_accept_lists_v1.duoarea_to_geo_code invalid key")
      assertE (v != "") ("geo_accept_lists_v1.duoarea_to_geo_code[" ++ k ++ "] invalid value")
      checkMappingEntries rest

/-- Companion object carrying one value per locked field of
`geo_accept_lists_v1` (its exact key set is the source's `EXPECTED_KEYS`). -/
structure ExpectedQuad (α : Type) where
  accepted_duoarea_petroleum_gnd : α
  accepted_duoarea_petroleum_wfr : α
  accepted_duoarea_natural_gas : α
  duoarea_to_geo_code : α
deriving DecidableEq

/-- `public/geo_accept_lists_v1.json`, typed (the `description` and `notes`
fields take no part in any data-dependent check and are omitted; the mapping
is an association list in JSON key order). -/
structure GeoAcceptListsDoc where
  schema_version : Int
  accepted_duoarea_petroleum_gnd : List String
  accepted_duoarea_petroleum_wfr : List String
  accepted_duoarea_natural_gas : List String
  duoarea_to_geo_code : List (String × String)
  expected_counts : ExpectedQuad Int
  expected_sorted_first_items : ExpectedQuad (List String)
  expected_set_hashes : ExpectedQuad String
deriving DecidableEq

/-- `allAcceptedDuoareas` of `validateGeoAcceptListsV1`: the union, as a JS
`Set` (first-occurrence order), of the three accept-lists. -/
def allAcceptedDuoareas (doc : GeoAcceptListsDoc) : List String :=
  dedupFirst (doc.accepted_duoarea_petroleum_gnd ++ doc.accepted_duoarea_petroleum_wfr ++
    doc.accepted_duoarea_natural_gas)

/-- `missingMapKeys`: accepted duoareas with no mapping entry, in union
iteration order. -/
def missingMapKeys (doc : GeoAcceptListsDoc) : List String :=
  (allAcceptedDuoareas doc).filter (fun duo => !(doc.duoarea_to_geo_code.map Prod.fst).contains duo)

/-- `extraMapKeys`: mapping keys used by no accept-list, in key iteration
order. -/
def extraMapKeys (doc : GeoAcceptListsDoc) : List String :=
  (dedupFirst (doc.duoarea_to_geo_code.map Prod.fst)).filter
    (fun k => !(allAcceptedDuoareas doc).contains k)

/-- `deriveGeoUniverseFromDuoareaMapping` of `config-validators.js`: a set
seeded with `"US"` then every mapping value, in insertion order. -/
def deriveGeoUniverseFromDuoareaMapping (duoareaToGeoCode : List (String × String)) : List String :=
  dedupFirst ("US" :: duoareaToGeoCode.map Prod.snd)

/-- `validateGeoAcceptListsV1` of `config-validators.js`; on success returns
the derived geo universe (the interesting part of the source's result). -/
def validateGeoAcceptListsV1 (doc : GeoAcceptListsDoc) : Except String (List String) := do
  assertE (doc.schema_version == 1) ("geo_accept_lists_v1: schema_version must be 1")
  assertUniqueStringArray doc.accepted_duoarea_petroleum_gnd
    ("geo_accept_lists_v1.accepted_duoarea_petroleum_gnd")
  assertUniqueStringArray doc.accepted_duoarea_petroleum_wfr
    ("geo_accept_lists_v1.accepted_duoarea_petroleum_wfr")
  assertUniqueStringArray doc.accepted_duoarea_natural_gas
    ("geo_accept_lists_v1.accepted_duoarea_natural_gas")
  checkMappingEntries doc.duoarea_to_geo_code
  assertE (missingMapKeys doc == [])
    ("geo_accept_lists_v1: duoarea_to_geo_code missing keys for accepted duoareas: " ++
     String.intercalate (", ") (missingMapKeys doc))
  assertE (extraMapKeys doc == [])
    ("geo_accept_lists_v1: duoarea_to_geo_code contains extra keys not present in any accept-list: " ++
     String.intercalate (", ") (extraMapKeys doc))
  checkCountEntry ("geo_accept_lists_v1") ("accepted_duoarea_petroleum_gnd")
    doc.expected_counts.accepted_duoarea_petroleum_gnd (doc.accepted_duoarea_petroleum_gnd.length : Int)
  checkCountEntry ("geo_accept_lists_v1") ("accepted_duoarea_petroleum_wfr")
    doc.expected_counts.accepted_duoarea_petroleum_wfr (doc.accepted_duoarea_petroleum_wfr.length : Int)
  checkCountEntry ("geo_accept_lists_v1") ("accepted_duoarea_natural_gas")
    doc.expected_counts.accepted_duoarea_natural_gas (doc.accepted_duoarea_natural_gas.length : Int)
  checkCountEntry ("geo_accept_lists_v1") ("duoarea_to_geo_code")
    doc.expected_counts.duoarea_to_geo_code (doc.duoarea_to_geo_code.length : Int)
  checkFirstItemsEntry ("geo_accept_lists_v1") ("accepted_duoarea_petroleum_gnd")
    doc.expected_sorted_first_items.accepted_duoarea_petroleum_gnd
    (jsSortStrings doc.accepted_duoarea_petroleum_gnd)
  checkFirstItemsEntry ("geo_accept_lists_v1") ("accepted_duoarea_petroleum_wfr")
    doc.expected_sorted_first_items.accepted_duoarea_petroleum_wfr
    (jsSortStrings doc.accepted_duoarea_petroleum_wfr)
  checkFirstItemsEntry ("geo_accept_lists_v1") ("accepted_duoarea_natural_gas")
    doc.expected_sorted_first_items.accepted_duoarea_natural_gas
    (jsSortStrings doc.accepted_duoarea_natural_gas)
  checkFirstItemsEntry ("geo_accept_lists_v1") ("duoarea_to_geo_code")
    doc.expected_sorted_first_items.duoarea_to_geo_code
    (firstNSortedLinesFromStringMap doc.duoarea_to_geo_code 999999)
  checkHashEntry ("geo_accept_lists_v1") ("accepted_duoarea_petroleum_gnd")
    doc.expected_set_hashes.accepted_duoarea_petroleum_gnd
    (sortedListHash doc.accepted_duoarea_petroleum_gnd)
  checkHashEntry ("geo_accept_lists_v1") ("accepted_duoarea_petroleum_wfr")
    doc.expected_set_hashes.accepted_duoarea_petroleum_wfr
    (sortedListHash doc.accepted_duoarea_petroleum_wfr)
  checkHashEntry ("geo_accept_lists_v1") ("accepted_duoarea_natural_gas")
    doc.expected_set_hashes.accepted_duoarea_natural_gas
    (sortedListHash doc.accepted_duoarea_natural_gas)
  checkHashEntry ("geo_accept_lists_v1") ("duoarea_to_geo_code")
    doc.expected_set_hashes.duoarea_to_geo_code (mappingHash doc.duoarea_to_geo_code)
  pure (deriveGeoUniverseFromDuoareaMapping doc.duoarea_to_geo_code)

/-- Companion object with the single locked field of `geo_fallback_map_v1`. -/
structure ExpectedSingle (α : Type) where
  fallback_chain_by_geo_code : α
deriving DecidableEq

/-- `public/geo_fallback_map_v1.json`, typed (`description` is uninvolved in
any data-dependent check and omitted; the chain map is an association list in
JSON key order). -/
structure GeoFallbackDoc where
  schema_version : Int
  fallback_chain_by_geo_code : List (String × List String)
  expected_counts : ExpectedSingle Int
  expected_sorted_first_items : ExpectedSingle (List String)
  expected_set_hashes : ExpectedSingle String
deriving DecidableEq

/-- The per-geography loop body of `validateGeoFallbackMapV1`, over the
entries in key order: nonempty key, nonempty chain, self-start,
universe membership, Root termination. -/
def checkChainEntries (geoUniverse : List String) : List (String × List String) → Except String Unit
  | [] => .ok ()
  | (geo, chain) :: rest => do
      assertE (geo != "") ("geo_fallback_map_v1 invalid key")
      assertE (chain.length ≥ 1) ("geo_fallback_map_v1 chain for " ++ geo ++ " must have at least 1 item")
      assertE (chain.headD "" == geo) ("geo_fallback_map_v1 chain for " ++ geo ++ " must start with itself")
      assertE ((chain.filter (fun v => !geoUniverse.contains v)) == [])
        ("geo_fallback_map_v1 chain for " ++ geo ++ ": contains unsupported values: " ++
         String.intercalate (", ") (chain.filter (fun v => !geoUniverse.contains v)))
      assertE (chain.getLastD "" == "US") ("geo_fallback_map_v1 chain for " ++ geo ++ " must end with US")
      checkChainEntries geoUniverse rest

/-- `validateGeoFallbackMapV1` of `config-validators.js`. The source sorts
the universe once in `toSortedArray` and once more inside `assertExactKeys`;
sorting an already-sorted list is the identity, so a single sort inside
`assertExactKeysList` is the same comparison. -/
def validateGeoFallbackMapV1 (doc : GeoFallbackDoc) (geoUniverse : List String) :
    Except String Unit := do
  assertE (doc.schema_version == 1) ("geo_fallback_map_v1: schema_version must be 1")
  assertE (decide (0 < geoUniverse.length)) ("geo_fallback_map_v1: internal error (geoUniverse missing)")
  assertExactKeysList (doc.fallback_chain_by_geo_code.map Prod.fst) geoUniverse
    ("geo_fallback_map_v1.fallback_chain_by_geo_code")
  checkChainEntries geoUniverse doc.fallback_chain_by_geo_code
  assertE ((List.lookup ("US") doc.fallback_chain_by_geo_code) == some ["US"])
    ("geo_fallback_map_v1: US chain must be [\"US\"]")
  checkCountEntry ("geo_fallback_map_v1") ("fallback_chain_by_geo_code")
    doc.expected_counts.fallback_chain_by_geo_code (doc.fallback_chain_by_geo_code.length : Int)
  checkFirstItemsEntry ("geo_fallback_map_v1") ("fallback_chain_by_geo_code")
    doc.expected_sorted_first_items.fallback_chain_by_geo_code
    (firstNSortedLinesFromChainMap doc.fallback_chain_by_geo_code 999999)
  checkHashEntry ("geo_fallback_map_v1") ("fallback_chain_by_geo_code")
    doc.expected_set_hashes.fallback_chain_by_geo_code
    (hashChainMap doc.fallback_chain_by_geo_code)

/-! ### `energy-prices-latest-with-fallback.mjs` — the fallback resolution
engine

`Row` is the row shape of `energy-prices-latest` / `rows_filled`. String
fields use `""` for the falsy values; `price` is `Option Int` — the engine
only tests `price !== null && price !== undefined` and copies the value. -/

structure Row where
  dataset : String
  fuel : String
  sector : String
  geo_code : String
  geo_display_name : String
  period : String
  price : Option Int
  price_units : String
  source_route : String
  source_series : String
  is_fallback : Bool
  fallback_from_geo_code : Option String
deriving DecidableEq

/-- `kFuelPeriodGeo` of the engine: the composite index key. -/
def kFuelPeriodGeo (fuel period geo : String) : String :=
  fuel ++ "||" ++ period ++ "||" ++ geo

/-- The key of a row, as computed in the index-building loop. -/
def rowKey (r : Row) : String := kFuelPeriodGeo r.fuel r.period r.geo_code

/-- The guard of the index-building loop: rows whose `fuel`, `period` or
`geo_code` is falsy are skipped. -/
def validRowFields (r : Row) : Bool := r.fuel != "" && r.period != "" && r.geo_code != ""

/-- One iteration of the index-building loop: insert unless a row is already
present for the key — except that a valued row replaces an unvalued one. -/
def indexInsert (idx : String → Option Row) (r : Row) : String → Option Row :=
  if validRowFields r then
    fun k =>
      if k == rowKey r then
        match idx (rowKey r) with
        | none => some r
        | some prev => if !prev.price.isSome && r.price.isSome then some r else some prev
      else idx k
  else idx

def buildIndexAux (idx : String → Option Row) : List Row → (String → Option Row)
  | [] => idx
  | r :: rest => buildIndexAux (indexInsert idx r) rest

/-- The `(fuel,period,geo) -> row` index of the engine (step "Build
(fuel,period,geo)->row index"). -/
def buildIndex (rows : List Row) : String → Option Row := buildIndexAux (fun _ => none) rows

/-- One entry of the engine's `combos` map. -/
structure Combo where
  dataset : String
  fuel : String
  period : String
  sector : String
  price_units : String
deriving DecidableEq

/-- The combo key `dataset||fuel||period`. -/
def comboKeyOf (dataset fuel period : String) : String := dataset ++ "||" ++ fuel ++ "||" ++ period

def comboKeyC (c : Combo) : String := comboKeyOf c.dataset c.fuel c.period

def buildCombosAux (acc : List Combo) : List Row → List Combo
  | [] => acc
  | r :: rest =>
    if r.fuel == "" || r.period == "" || r.dataset == "" then buildCombosAux acc rest
    else if acc.any (fun c => comboKeyC c == comboKeyOf r.dataset r.fuel r.period) then
      buildCombosAux acc rest
    else
      buildCombosAux (acc ++ [{ dataset := r.dataset, fuel := r.fuel, period := r.period,
                                sector := r.sector, price_units := r.price_units }]) rest

/-- The engine's combo enumeration (step "Determine which
(dataset,fuel,period) combos exist"), values in insertion order. -/
def buildCombos (rows : List Row) : List Combo := buildCombosAux [] rows

/-- `allGeoCodes`: `Object.keys(fb).slice().sort()`. -/
def allGeoCodes (fb : List (String × List String)) : List String :=
  jsSortStrings (fb.map Prod.fst)

/-- `geoNames[targetGeo] || targetGeo`: a missing or falsy display name falls
back to the code itself. -/
def displayName (geoNames : List (String × String)) (g : String) : String :=
  match List.lookup g geoNames with
  | some s => if s == "" then g else s
  | none => g

/-- The chain walk of the fill loop: the first chain element whose indexed
row has a non-null price wins, together with that donor code. -/
def pickFromChain (idx : String → Option Row) (fuel period : String) :
    List String → Option (Row × String)
  | [] => none
  | g :: rest =>
    match idx (kFuelPeriodGeo fuel period g) with
    | some r => if r.price.isSome then some (r, g) else pickFromChain idx fuel period rest
    | none => pickFromChain idx fuel period rest

/-- `fb[targetGeo] || [targetGeo, "US"]`. -/
def chainFor (fb : List (String × List String)) (g : String) : List String :=
  (List.lookup g fb).getD [g, "US"]

/-- The fallback arm of the fill loop: chain walk, then either the fallback
emit (donor row re-labelled to the target geography) or the still-missing
emit. -/
def fillFallback (idx : String → Option Row) (fb : List (String × List String))
    (geoNames : List (String × String)) (c : Combo) (targetGeo : String) : Row :=
  match pickFromChain idx c.fuel c.period (chainFor fb targetGeo) with
  | some (picked, pickedFrom) =>
    { picked with
      geo_code := targetGeo
      geo_display_name := displayName geoNames targetGeo
      is_fallback := true
      fallback_from_geo_code := some pickedFrom }
  | none =>
    { dataset := c.dataset, fuel := c.fuel, sector := c.sector, geo_code := targetGeo,
      geo_display_name := displayName geoNames targetGeo, period := c.period, price := none,
      price_units := c.price_units, source_route := "", source_series := "",
      is_fallback := true, fallback_from_geo_code := none }

/-- The body of the fill loop for one `(combo, targetGeo)` pair: direct hit
if the index has a valued row at the target's own key, else the fallback
arm. -/
def fillRow (idx : String → Option Row) (fb : List (String × List String))
    (geoNames : List (String × String)) (c : Combo) (targetGeo : String) : Row :=
  match idx (kFuelPeriodGeo c.fuel c.period targetGeo) with
  | some directRow =>
    if directRow.price.isSome then
      { directRow with
        geo_display_name := displayName geoNames targetGeo
        is_fallback := false
        fallback_from_geo_code := none }
    else fillFallback idx fb geoNames c targetGeo
  | none => fillFallback idx fb geoNames c targetGeo

/-- `stableRowSort` of the engine: dataset ASC, fuel ASC, geo_code ASC,
period DESC, compared with the JS string order. -/
def stableRowSort (a b : Row) : Int :=
  if a.dataset != b.dataset then (if jsLt a.dataset b.dataset then -1 else 1)
  else if a.fuel != b.fuel then (if jsLt a.fuel b.fuel then -1 else 1)
  else if a.geo_code != b.geo_code then (if jsLt a.geo_code b.geo_code then -1 else 1)
  else if a.period != b.period then (if jsLt b.period a.period then -1 else 1)
  else 0

/-- The `sort`-order Boolean of `stableRowSort` (a non-positive comparator
value places `a` no later than `b`). -/
def rowLeB (a b : Row) : Bool := decide (stableRowSort a b ≤ 0)

/-- The whole resolution run: index, combos, fill every
`(combo, geography)` pair, sort. -/
def resolveRows (rows : List Row) (fb : List (String × List String))
    (geoNames : List (String × String)) : List Row :=
  stableSort rowLeB
    ((buildCombos rows).flatMap (fun c => (allGeoCodes fb).map (fillRow (buildIndex rows) fb geoNames c)))

/-! ### Specification-side definitions

These follow the wording of the specification (not the source); the theorems
below relate them to the source-derived definitions above. -/

/-- Spec wording (index build): "keep the first encountered" — the first
valid row of the input carrying the given key. -/
def firstHit (rows : List Row) (k : String) : Option Row :=
  rows.find? (fun r => validRowFields r && rowKey r == k)

/-- Spec wording (index build): "prefer one with a non-null value" — the
first valid row of the input carrying the given key with a non-null price. -/
def firstValuedHit (rows : List Row) (k : String) : Option Row :=
  rows.find? (fun r => validRowFields r && rowKey r == k && r.price.isSome)

/-- The index holds a row with a non-null price at `(fuel, period, g)`. -/
def valuedAt (idx : String → Option Row) (fuel period g : String) : Bool :=
  match idx (kFuelPeriodGeo fuel period g) with
  | some r => r.price.isSome
  | none => false

/-- Spec wording (output order): dataset ascending, then fuel ascending, then
geography code ascending, then period descending (`jsLt` is the JS string
order). -/
def specLe (a b : Row) : Prop :=
  jsLt a.dataset b.dataset = true ∨ (a.dataset = b.dataset ∧
    (jsLt a.fuel b.fuel = true ∨ (a.fuel = b.fuel ∧
      (jsLt a.geo_code b.geo_code = true ∨ (a.geo_code = b.geo_code ∧
        (jsLt b.period a.period = true ∨ a.period = b.period))))))

/-- A string without the `'|'` character: such strings make the composite
`fuel||period||geo` index key unambiguous. -/
def barFree (s : String) : Prop := '|' ∉ s.data

instance (s : String) : Decidable (barFree s) :=
  inferInstanceAs (Decidable ('|' ∉ s.data))

/-- The output row identified with the `(combo, geography)` pair, by its
fields. -/
def matchesComboGeo (c : Combo) (g : String) (r : Row) : Bool :=
  r.dataset == c.dataset && r.fuel == c.fuel && r.period == c.period && r.geo_code == g

/-! ### Concrete configurations and observation sets used by the witnesses
and counterexamples -/

/-- An input observation row (`energy-prices-latest` shape): the output-only
fields are blank/false as the upstream combiner leaves them. -/
def mkObs (dataset fuel period geo : String) (price : Option Int) : Row :=
  { dataset := dataset, fuel := fuel, sector := "res", geo_code := geo,
    geo_display_name := "", period := period, price := price, price_units := "usd/gal",
    source_route := "v2/petroleum", source_series := "EMM_EPM0_PTE", is_fallback := false,
    fallback_from_geo_code := none }

/-- Chains for the nearest-donor scenario of the spec: AK falls back through
R20 to US. -/
def w1fb : List (String × List String) :=
  [("AK", ["AK", "R20", "US"]), ("R20", ["R20", "US"]), ("US", ["US"])]

/-- Observations for the nearest-donor scenario: AK null, R20 and US
valued. -/
def w1rows : List Row :=
  [mkObs ("pet") ("gasoline") ("2025-01") ("AK") none,
   mkObs ("pet") ("gasoline") ("2025-01") ("R20") (some 425),
   mkObs ("pet") ("gasoline") ("2025-01") ("US") (some 400)]

/-- The single combo discovered from `w1rows`. -/
def w1combo : Combo :=
  { dataset := "pet", fuel := "gasoline", period := "2025-01", sector := "res",
    price_units := "usd/gal" }

/-- Two datasets sharing a `(fuel, period)` pair: the index, keyed only on
`(fuel, period, geo)`, then serves dataset-A rows to dataset-B passes. -/
def x2rows : List Row :=
  [mkObs ("dsA") ("f") ("p") ("US") (some 1), mkObs ("dsB") ("f") ("p") ("US") (some 2)]

def x2fb : List (String × List String) := [("US", ["US"])]

/-- The dataset-B combo discovered from `x2rows`. -/
def x2combo : Combo :=
  { dataset := "dsB", fuel := "f", period := "p", sector := "res", price_units := "usd/gal" }

/-- A well-formed fallback-map document over the universe `{US, AK}`; its
embedded expectations are consistent with its data. -/
def w5chains : List (String × List String) := [("AK", ["AK", "US"]), ("US", ["US"])]

def w5universe : List String := ["US", "AK"]

def w5doc : GeoFallbackDoc :=
  { schema_version := 1, fallback_chain_by_geo_code := w5chains,
    expected_counts := { fallback_chain_by_geo_code := 2 },
    expected_sorted_first_items := { fallback_chain_by_geo_code := [] },
    expected_set_hashes := { fallback_chain_by_geo_code := hashChainMap w5chains } }

/-- An AK chain padded with `n` extra self-references: length `n + 2`, yet
self-starting, universe-contained and Root-terminated. -/
def c6chain (n : Nat) : List String := "AK" :: (List.replicate n ("AK") ++ ["US"])

def c6chains (n : Nat) : List (String × List String) := [("AK", c6chain n), ("US", ["US"])]

def c6universe : List String := ["US", "AK"]

/-- A fallback-map document whose AK chain has length `n + 2` over a
two-element universe, with self-consistent embedded expectations. -/
def c6doc (n : Nat) : GeoFallbackDoc :=
  { schema_version := 1, fallback_chain_by_geo_code := c6chains n,
    expected_counts := { fallback_chain_by_geo_code := 2 },
    expected_sorted_first_items := { fallback_chain_by_geo_code := [] },
    expected_set_hashes := { fallback_chain_by_geo_code := hashChainMap (c6chains n) } }

/-- An accept-lists document whose accepted duoarea `GAK` has no mapping
entry (the other checks are clean). -/
def w7doc : GeoAcceptListsDoc :=
  { schema_version := 1,
    accepted_duoarea_petroleum_gnd := ["GAK", "GUS"],
    accepted_duoarea_petroleum_wfr := [],
    accepted_duoarea_natural_gas := ["GUS"],
    duoarea_to_geo_code := [("GUS", "US")],
    expected_counts := { accepted_duoarea_petroleum_gnd := 2, accepted_duoarea_petroleum_wfr := 0,
                         accepted_duoarea_natural_gas := 1, duoarea_to_geo_code := 1 },
    expected_sorted_first_items := { accepted_duoarea_petroleum_gnd := [],
                                     accepted_duoarea_petroleum_wfr := [],
                                     accepted_duoarea_natural_gas := [],
                                     duoarea_to_geo_code := [] },
    expected_set_hashes := { accepted_duoarea_petroleum_gnd := "", accepted_duoarea_petroleum_wfr := "",
                             accepted_duoarea_natural_gas := "", duoarea_to_geo_code := "" } }

/-- Two string maps with the same contents in different entry orders. -/
def w4mapA : List (String × String) := [("AK", "Alaska"), ("R20", "Rocky Mountain"), ("US", "United States")]

def w4mapB : List (String × String) := [("US", "United States"), ("AK", "Alaska"), ("R20", "Rocky Mountain")]

/-- Two chain maps with the same contents in different entry orders. -/
def w4chainA : List (String × List String) := [("AK", ["AK", "US"]), ("US", ["US"])]

def w4chainB : List (String × List String) := [("US", ["US"]), ("AK", ["AK", "US"])]

/-! ## Theorems -/

/-! ### The stable sort -/

theorem stableInsert_perm {α : Type} (le : α → α → Bool) (x : α) :
    ∀ l : List α, (stableInsert le x l).Perm (x :: l) := by
  intro l
  induction l with
  | nil => simp [stableInsert]
  | cons y ys ih =>
    simp only [stableInsert]
    by_cases h : le y x = true
    · simp only [h, if_true]
      exact (ih.cons y).trans (List.Perm.swap x y ys)
    · simp [h]

theorem stableSortAux_perm {α : Type} (le : α → α → Bool) :
    ∀ (l acc : List α), (stableSortAux le acc l).Perm (acc ++ l) := by
  intro l
  induction l with
  | nil => intro acc; simp [stableSortAux]
  | cons x xs ih =>
    intro acc
    simp only [stableSortAux]
    refine (ih (stableInsert le x acc)).trans ?_
    refine (((stableInsert_perm le x acc).append_right xs).trans ?_)
    exact List.perm_middle.symm

theorem stableSort_perm {α : Type} (le : α → α → Bool) (l : List α) :
    (stableSort le l).Perm l := by
  simpa using stableSortAux_perm le l []

theorem stableInsert_pairwise {α : Type} (le : α → α → Bool)
    (htot : ∀ a b, le a b = true ∨ le b a = true)
    (htrans : ∀ a b c, le a b = true → le b c = true → le a c = true)
    (x : α) : ∀ l : List α, l.Pairwise (le · · = true) →
      (stableInsert le x l).Pairwise (le · · = true) := by
  intro l
  induction l with
  | nil => intro _; simp [stableInsert]
  | cons y ys ih =>
    intro h
    rw [List.pairwise_cons] at h
    obtain ⟨hy, hys⟩ := h
    simp only [stableInsert]
    by_cases hle : le y x = true
    · simp only [hle, if_true, List.pairwise_cons]
      constructor
      · intro z hz
        have hzmem : z = x ∨ z ∈ ys :=
          List.mem_cons.mp ((stableInsert_perm le x ys).mem_iff.mp hz)
        rcases hzmem with hzx | hmem
        · subst hzx; exact hle
        · exact hy z hmem
      · exact ih hys
    · have hle' : le y x = false := by simpa using hle
      have hxy : le x y = true := (htot x y).resolve_right (by simp [hle'])
      simp only [hle', Bool.false_eq_true, if_false, List.pairwise_cons]
      refine ⟨?_, ?_⟩
      · intro z hz
        rcases List.mem_cons.mp hz with hzy | hmem
        · subst hzy; exact hxy
        · exact htrans x y z hxy (hy z hmem)
      · exact ⟨hy, hys⟩

theorem stableSortAux_pairwise {α : Type} (le : α → α → Bool)
    (htot : ∀ a b, le a b = true ∨ le b a = true)
    (htrans : ∀ a b c, le a b = true → le b c = true → le a c = true) :
    ∀ (l acc : List α), acc.Pairwise (le · · = true) →
      (stableSortAux le acc l).Pairwise (le · · = true) := by
  intro l
  induction l with
  | nil => intro acc h; simpa [stableSortAux] using h
  | cons x xs ih =>
    intro acc h
    simp only [stableSortAux]
    exact ih _ (stableInsert_pairwise le htot htrans x acc h)

theorem stableSort_pairwise {α : Type} (le : α → α → Bool)
    (htot : ∀ a b, le a b = true ∨ le b a = true)
    (htrans : ∀ a b c, le a b = true → le b c = true → le a c = true)
    (l : List α) : (stableSort le l).Pairwise (le · · = true) :=
  stableSortAux_pairwise le htot htrans l [] (by simp)

/-! ### The JS string order -/

theorem charToNat_inj : Function.Injective Char.toNat :=
  StrictMono.injective fun _ _ h => h

theorem charListLt_irrefl : ∀ l : List Char, charListLt l l = false := by
  intro l
  induction l with
  | nil => rfl
  | cons c cs ih => simp [charListLt, ih]

theorem charListLt_asymm : ∀ a b : List Char, charListLt a b = true → charListLt b a = false := by
  intro a
  induction a with
  | nil => intro b h; cases b <;> simp_all [charListLt]
  | cons c cs ih =>
    intro b h
    cases b with
    | nil => simp_all [charListLt]
    | cons d ds =>
      simp only [charListLt] at h ⊢
      by_cases h1 : c.toNat < d.toNat
      · have h2 : ¬ d.toNat < c.toNat := by omega
        simp [h1, h2]
      · by_cases h2 : d.toNat < c.toNat
        · simp [h1, h2] at h
        · simp only [h1, h2, if_false] at h ⊢
          exact ih ds h

theorem charListLt_trans :
    ∀ a b c : List Char, charListLt a b = true → charListLt b c = true → charListLt a c = true := by
  intro a
  induction a with
  | nil =>
    intro b c hab hbc
    cases b with
    | nil => simp_all [charListLt]
    | cons d ds => cases c <;> simp_all [charListLt]
  | cons x xs ih =>
    intro b c hab hbc
    cases b with
    | nil => simp_all [charListLt]
    | cons y ys =>
      cases c with
      | nil => simp_all [charListLt]
      | cons z zs =>
        simp only [charListLt] at hab hbc ⊢
        by_cases hxy : x.toNat < y.toNat
        · by_cases hyz : y.toNat < z.toNat
          · have : x.toNat < z.toNat := by omega
            simp [this]
          · by_cases hzy : z.toNat < y.toNat
            · simp [hyz, hzy] at hbc
            · have hy : y.toNat = z.toNat := by omega
              have : x.toNat < z.toNat := by omega
              simp [this]
        · by_cases hyx : y.toNat < x.toNat
          · simp [hxy, hyx] at hab
          · have hx : x.toNat = y.toNat := by omega
            by_cases hyz : y.toNat < z.toNat
            · have : x.toNat < z.toNat := by omega
              simp [this]
            · by_cases hzy : z.toNat < y.toNat
              · simp [hyz, hzy] at hbc
              · have : ¬ x.toNat < z.toNat := by omega
                have h2 : ¬ z.toNat < x.toNat := by omega
                simp only [hxy, hyx, if_false] at hab
                simp only [hyz, hzy, if_false] at hbc
                simp only [this, h2, if_false]
                exact ih ys zs hab hbc

theorem charListLt_conn :
    ∀ a b : List Char, charListLt a b = false → charListLt b a = false → a = b := by
  intro a
  induction a with
  | nil => intro b h1 _; cases b <;> simp_all [charListLt]
  | cons x xs ih =>
    intro b h1 h2
    cases b with
    | nil => simp_all [charListLt]
    | cons y ys =>
      simp only [charListLt] at h1 h2
      by_cases hxy : x.toNat < y.toNat
      · simp [hxy] at h1
      · by_cases hyx : y.toNat < x.toNat
        · simp [hyx, hxy] at h2
        · have hx : x = y := charToNat_inj (by omega)
          simp only [hxy, hyx, if_false] at h1 h2
          rw [hx, ih ys h1 h2]

theorem string_data_inj {a b : String} (h : a.data = b.data) : a = b := by
  cases a; cases b; simp_all

theorem jsLt_irrefl (a : String) : jsLt a a = false := charListLt_irrefl a.data

theorem jsLt_asymm {a b : String} (h : jsLt a b = true) : jsLt b a = false :=
  charListLt_asymm a.data b.data h

theorem jsLt_trans {a b c : String} (h1 : jsLt a b = true) (h2 : jsLt b c = true) :
    jsLt a c = true :=
  charListLt_trans a.data b.data c.data h1 h2

theorem jsLt_conn {a b : String} (h1 : jsLt a b = false) (h2 : jsLt b a = false) : a = b :=
  string_data_inj (charListLt_conn a.data b.data h1 h2)

theorem strLeB_total : ∀ a b : String, strLeB a b = true ∨ strLeB b a = true := by
  intro a b
  simp only [strLeB, Bool.not_eq_true']
  by_cases h : jsLt b a = true
  · exact Or.inr (jsLt_asymm h)
  · exact Or.inl (by simpa using h)

theorem strLeB_trans :
    ∀ a b c : String, strLeB a b = true → strLeB b c = true → strLeB a c = true := by
  intro a b c h1 h2
  simp only [strLeB, Bool.not_eq_true'] at h1 h2 ⊢
  by_cases hca : jsLt c a = true
  · rcases Bool.eq_false_or_eq_true (jsLt a b) with hab | hab
    · have := jsLt_trans hca hab
      simp_all
    · have : a = b := jsLt_conn hab h1
      subst this
      simp_all
  · simpa using hca

theorem strLeB_antisymm {a b : String} (h1 : strLeB a b = true) (h2 : strLeB b a = true) :
    a = b := by
  simp only [strLeB, Bool.not_eq_true'] at h1 h2
  exact (jsLt_conn h2 h1)

theorem jsSortStrings_perm (l : List String) : (jsSortStrings l).Perm l :=
  stableSort_perm strLeB l

theorem jsSortStrings_pairwise (l : List String) :
    (jsSortStrings l).Pairwise (strLeB · · = true) :=
  stableSort_pairwise strLeB strLeB_total strLeB_trans l

theorem jsSortStrings_eq_of_perm {l1 l2 : List String} (h : l1.Perm l2) :
    jsSortStrings l1 = jsSortStrings l2 := by
  have hperm : (jsSortStrings l1).Perm (jsSortStrings l2) :=
    (jsSortStrings_perm l1).trans (h.trans (jsSortStrings_perm l2).symm)
  have ha : IsAntisymm String (strLeB · · = true) := ⟨fun _ _ => strLeB_antisymm⟩
  exact @List.eq_of_perm_of_sorted _ _ ha _ _ hperm (jsSortStrings_pairwise l1)
    (jsSortStrings_pairwise l2)

/-! ### Digest shape -/

theorem roundStep_length {st : List Nat} (kw : Nat × Nat) (h : st.length = 8) :
    (roundStep st kw).length = 8 := by
  unfold roundStep
  split <;> simp_all

theorem foldl_roundStep_length :
    ∀ (l : List (Nat × Nat)) (st : List Nat), st.length = 8 →
      (l.foldl roundStep st).length = 8 := by
  intro l
  induction l with
  | nil => intro st h; simpa using h
  | cons kw rest ih =>
    intro st h
    simpa using ih (roundStep st kw) (roundStep_length kw h)

theorem processChunk_length {hs : List Nat} (chunk : List Nat) (h : hs.length = 8) :
    (processChunk hs chunk).length = 8 := by
  unfold processChunk
  have hst := foldl_roundStep_length ((extendW (words16 chunk) 48).zip shaK) hs h
  simp [List.length_zip, h, hst]

theorem foldl_processChunk_length :
    ∀ (chunks : List (List Nat)) (hs : List Nat), hs.length = 8 →
      (chunks.foldl processChunk hs).length = 8 := by
  intro chunks
  induction chunks with
  | nil => intro hs h; simpa using h
  | cons c rest ih =>
    intro hs h
    simpa using ih (processChunk hs c) (processChunk_length c h)

theorem hexWord_length (x : Nat) : (hexWord x).length = 8 := by
  simp [hexWord]

theorem flatMap_hexWord_length :
    ∀ hs : List Nat, (hs.flatMap hexWord).length = 8 * hs.length := by
  intro hs
  induction hs with
  | nil => simp
  | cons x rest ih =>
    simp only [List.flatMap_cons, List.length_append, hexWord_length, ih, List.length_cons]
    ring

theorem sha256_length (s : String) : (sha256 s).length = 64 := by
  unfold sha256
  have h8 : ((toChunks (padMsg (utf8Bytes s))).foldl processChunk shaH0).length = 8 :=
    foldl_processChunk_length _ shaH0 (by rfl)
  show (((toChunks (padMsg (utf8Bytes s))).foldl processChunk shaH0).flatMap hexWord).length = 64
  rw [flatMap_hexWord_length, h8]

theorem hexChar_mem (n : Nat) (h : n ≤ 15) : hexChar n ∈ ("0123456789abcdef" : String).data := by
  interval_cases n <;> decide

theorem sha256_hex_chars (s : String) :
    ∀ ch ∈ (sha256 s).data, ch ∈ ("0123456789abcdef" : String).data := by
  intro ch hch
  unfold sha256 at hch
  have hmem : ch ∈ ((toChunks (padMsg (utf8Bytes s))).foldl processChunk shaH0).flatMap hexWord := hch
  obtain ⟨x, _, hx⟩ := List.mem_flatMap.mp hmem
  simp only [hexWord, List.mem_map, List.mem_range] at hx
  obtain ⟨i, _, hi⟩ := hx
  subst hi
  exact hexChar_mem _ (Nat.and_le_right)

/-! ### Claim C4 — canonicalization determinism -/

/-- C4: the content hashes of `geo_config_hash.js` are invariant under any
permutation of entry (key/insertion) order: maps with equal key-to-value
(resp. key-to-sequence) contents — here, entry lists that are permutations of
each other — get the identical digest, and that digest is a fixed-length
(64-character) lowercase-hex string.  The invariance holds because the
generated `"k=v"` lines are sorted before hashing. -/
theorem hash_order_invariance (m1 m2 : List (String × String))
    (c1 c2 : List (String × List String)) (hm : m1.Perm m2) (hc : c1.Perm c2) :
    hashStringMap m1 = hashStringMap m2 ∧ hashChainMap c1 = hashChainMap c2 ∧
    (hashStringMap m1).length = 64 ∧ (hashChainMap c1).length = 64 ∧
    (∀ ch ∈ (hashStringMap m1).data, ch ∈ ("0123456789abcdef" : String).data) ∧
    (∀ ch ∈ (hashChainMap c1).data, ch ∈ ("0123456789abcdef" : String).data) := by
  refine ⟨?_, ?_, sha256_length _, sha256_length _, sha256_hex_chars _, sha256_hex_chars _⟩
  · unfold hashStringMap
    have hlines : (stringMapLines m1).Perm (stringMapLines m2) := hm.map _
    rw [jsSortStrings_eq_of_perm hlines]
  · unfold hashChainMap
    have hlines : (chainMapLines c1).Perm (chainMapLines c2) := hc.map _
    rw [jsSortStrings_eq_of_perm hlines]

/-- Witness for C4 at concrete permuted maps. -/
theorem hash_order_invariance_witness :
    w4mapA.Perm w4mapB ∧ w4chainA.Perm w4chainB ∧
    hashStringMap w4mapA = hashStringMap w4mapB ∧ hashChainMap w4chainA = hashChainMap w4chainB ∧
    (hashStringMap w4mapA).length = 64 := by
  have hm : w4mapA.Perm w4mapB := by decide
  have hc : w4chainA.Perm w4chainB := by decide
  have h := hash_order_invariance w4mapA w4mapB w4chainA w4chainB hm hc
  exact ⟨hm, hc, h.1, h.2.1, h.2.2.1⟩

/-! ### Claim C8 — index build preference -/

theorem buildIndexAux_spec :
    ∀ (rows : List Row) (idx : String → Option Row) (k : String),
      buildIndexAux idx rows k =
        match idx k with
        | some prev =>
          if prev.price.isSome then some prev
          else (match firstValuedHit rows k with
                | some r => some r
                | none => some prev)
        | none =>
          match firstValuedHit rows k with
          | some r => some r
          | none => firstHit rows k := by
  intro rows
  induction rows with
  | nil =>
    intro idx k
    simp only [buildIndexAux, firstValuedHit, firstHit, List.find?]
    cases hik : idx k with
    | none => rfl
    | some prev => by_cases h : prev.price.isSome <;> simp [h]
  | cons r rest ih =>
    intro idx k
    simp only [buildIndexAux]
    rw [ih]
    by_cases hvalid : validRowFields r = true
    · by_cases hkey : k == rowKey r
      · have hk : k = rowKey r := by simpa using hkey
        have hfv : firstValuedHit (r :: rest) k =
            (if r.price.isSome then some r else firstValuedHit rest k) := by
          have hself : (rowKey r == rowKey r) = true := by simp
          simp only [firstValuedHit, List.find?, hvalid, hk, hself, Bool.and_true,
            Bool.true_and]
          by_cases hp : r.price.isSome <;> simp [hp]
        have hfh : firstHit (r :: rest) k = some r := by
          simp [firstHit, List.find?, hvalid, hk]
        rw [hfv, hfh]
        simp only [indexInsert, hvalid, if_true, hkey, if_true, ← hk]
        cases hik : idx k with
        | none =>
          by_cases hp : r.price.isSome <;> simp [hp]
        | some prev =>
          by_cases hprev : prev.price.isSome
          · simp only [hprev, Bool.not_true, Bool.false_and, if_false, if_true]
            by_cases hp : r.price.isSome <;> simp [hp, hprev]
          · simp only [hprev, Bool.not_false, Bool.true_and]
            by_cases hp : r.price.isSome
            · simp [hp, hprev]
            · simp [hp, hprev]
      · have hfv : firstValuedHit (r :: rest) k = firstValuedHit rest k := by
          have : (validRowFields r && rowKey r == k && r.price.isSome) = false := by
            have : (rowKey r == k) = false := by
              cases hbe : rowKey r == k
              · rfl
              · exact absurd (by simpa using (beq_iff_eq.mp hbe).symm) (by simpa using hkey)
            simp [this]
          simp [firstValuedHit, List.find?, this]
        have hfh : firstHit (r :: rest) k = firstHit rest k := by
          have : (validRowFields r && rowKey r == k) = false := by
            have : (rowKey r == k) = false := by
              cases hbe : rowKey r == k
              · rfl
              · exact absurd (by simpa using (beq_iff_eq.mp hbe).symm) (by simpa using hkey)
            simp [this]
          simp [firstHit, List.find?, this]
        rw [hfv, hfh]
        have hidx : indexInsert idx r k = idx k := by
          simp [indexInsert, hvalid, hkey]
        rw [hidx]
    · have hv : validRowFields r = false := by simpa using hvalid
      have hfv : firstValuedHit (r :: rest) k = firstValuedHit rest k := by
        simp [firstValuedHit, List.find?, hv]
      have hfh : firstHit (r :: rest) k = firstHit rest k := by
        simp [firstHit, List.find?, hv]
      have hidx : indexInsert idx r = idx := by
        simp [indexInsert, hv]
      rw [hfv, hfh, hidx]

theorem buildIndex_characterization (rows : List Row) (k : String) :
    buildIndex rows k =
      match firstValuedHit rows k with
      | some r => some r
      | none => firstHit rows k := by
  unfold buildIndex
  rw [buildIndexAux_spec]

/-- C8: the index kept for a key is the first input row with that key
carrying a non-null price when one exists, and otherwise the first input row
with that key at all — a valued row is preferred over an unvalued one, and
among equally-preferred rows the first encountered wins, so a later row never
overwrites an earlier equally-preferred one (no last-wins behaviour). -/
theorem buildIndex_prefers_first_valued (rows : List Row) (k : String) :
    buildIndex rows k =
      match firstValuedHit rows k with
      | some r => some r
      | none => firstHit rows k :=
  buildIndex_characterization rows k

/-! ### The chain walk -/

theorem pickFromChain_first (idx : String → Option Row) (fuel period : String) :
    ∀ (pre : List String) (d : String) (suf : List String) (r : Row),
      (∀ e ∈ pre, valuedAt idx fuel period e = false) →
      idx (kFuelPeriodGeo fuel period d) = some r → r.price.isSome = true →
      pickFromChain idx fuel period (pre ++ d :: suf) = some (r, d) := by
  intro pre
  induction pre with
  | nil =>
    intro d suf r _ hidx hsome
    simp [pickFromChain, hidx, hsome]
  | cons e es ih =>
    intro d suf r hpre hidx hsome
    have he : valuedAt idx fuel period e = false := hpre e (by simp)
    have hrest : ∀ x ∈ es, valuedAt idx fuel period x = false := fun x hx => hpre x (by simp [hx])
    simp only [List.cons_append, pickFromChain]
    unfold valuedAt at he
    cases hie : idx (kFuelPeriodGeo fuel period e) with
    | none => simpa [hie] using ih d suf r hrest hidx hsome
    | some re =>
      rw [hie] at he
      change re.price.isSome = false at he
      simpa [hie, he] using ih d suf r hrest hidx hsome

theorem pickFromChain_sound (idx : String → Option Row) (fuel period : String) :
    ∀ (chain : List String) (r : Row) (d : String),
      pickFromChain idx fuel period chain = some (r, d) →
      idx (kFuelPeriodGeo fuel period d) = some r ∧ r.price.isSome = true := by
  intro chain
  induction chain with
  | nil => intro r d h; simp [pickFromChain] at h
  | cons g gs ih =>
    intro r d h
    simp only [pickFromChain] at h
    cases hig : idx (kFuelPeriodGeo fuel period g) with
    | none =>
      rw [hig] at h
      exact ih r d h
    | some rg =>
      rw [hig] at h
      by_cases hs : rg.price.isSome = true
      · simp only [hs, if_true, Option.some.injEq, Prod.mk.injEq] at h
        obtain ⟨h1, h2⟩ := h
        subst h1; subst h2
        exact ⟨hig, hs⟩
      · simp only [Bool.not_eq_true] at hs
        simp only [hs, Bool.false_eq_true, if_false] at h
        exact ih r d h

/-- Every filled `(combo, geography)` row is in the sorted output. -/
theorem fillRow_mem_resolveRows (rows : List Row) (fb : List (String × List String))
    (names : List (String × String)) (c : Combo) (g : String)
    (hc : c ∈ buildCombos rows) (hg : g ∈ allGeoCodes fb) :
    fillRow (buildIndex rows) fb names c g ∈ resolveRows rows fb names := by
  unfold resolveRows
  refine (stableSort_perm rowLeB _).mem_iff.mpr ?_
  exact List.mem_flatMap.mpr ⟨c, hc, List.mem_map.mpr ⟨g, hg, rfl⟩⟩

/-! ### Claim C1 — direct hits and nearest-donor fallback -/

/-- C1: for a combo discovered from the rows and a geography enumerated from
the fallback map's keys: a valued indexed row at the target's own key is
emitted as a direct hit carrying that row (hence its price) with
`is_fallback = false` and no `fallback_from`; otherwise the authored chain is
walked in order and the first element whose indexed row has a non-null price
supplies the row, emitted with `geo_code = g` (the target, not the donor),
`is_fallback = true` and `fallback_from` equal to that first donor — an
element with a valued row later in the chain cannot be chosen, since the
conclusion pins `fallback_from` to the first one. -/
theorem resolve_direct_and_nearest_donor (rows : List Row) (fb : List (String × List String))
    (names : List (String × String)) (c : Combo) (g : String)
    (hc : c ∈ buildCombos rows) (hg : g ∈ allGeoCodes fb) :
    (∀ r : Row, buildIndex rows (kFuelPeriodGeo c.fuel c.period g) = some r →
      r.price.isSome = true →
      fillRow (buildIndex rows) fb names c g =
        { r with geo_display_name := displayName names g,
                 is_fallback := false, fallback_from_geo_code := none } ∧
      fillRow (buildIndex rows) fb names c g ∈ resolveRows rows fb names) ∧
    (∀ (pre : List String) (d : String) (suf : List String) (r : Row),
      valuedAt (buildIndex rows) c.fuel c.period g = false →
      chainFor fb g = pre ++ d :: suf →
      (∀ e ∈ pre, valuedAt (buildIndex rows) c.fuel c.period e = false) →
      buildIndex rows (kFuelPeriodGeo c.fuel c.period d) = some r →
      r.price.isSome = true →
      fillRow (buildIndex rows) fb names c g =
        { r with geo_code := g, geo_display_name := displayName names g,
                 is_fallback := true, fallback_from_geo_code := some d } ∧
      fillRow (buildIndex rows) fb names c g ∈ resolveRows rows fb names) := by
  constructor
  · intro r hidx hsome
    refine ⟨?_, fillRow_mem_resolveRows rows fb names c g hc hg⟩
    simp [fillRow, hidx, hsome]
  · intro pre d suf r hnv hchain hpre hidx hsome
    refine ⟨?_, fillRow_mem_resolveRows rows fb names c g hc hg⟩
    have hpick : pickFromChain (buildIndex rows) c.fuel c.period (chainFor fb g) = some (r, d) := by
      rw [hchain]
      exact pickFromChain_first _ _ _ pre d suf r hpre hidx hsome
    unfold fillRow
    unfold valuedAt at hnv
    cases hig : buildIndex rows (kFuelPeriodGeo c.fuel c.period g) with
    | none => simp [fillFallback, hpick]
    | some dr =>
      rw [hig] at hnv
      change dr.price.isSome = false at hnv
      simp [hnv, fillFallback, hpick]

/-- Witness for C1: the spec's nearest-donor scenario — chain
`[AK, R20, US]`, AK unvalued, R20 and US valued; AK resolves from R20 (price
425), not from US. -/
theorem resolve_direct_and_nearest_donor_witness :
    fillRow (buildIndex w1rows) w1fb [] w1combo ("AK") =
      { mkObs ("pet") ("gasoline") ("2025-01") ("R20") (some 425) with
        geo_code := "AK", geo_display_name := "AK",
        is_fallback := true, fallback_from_geo_code := some "R20" } ∧
    fillRow (buildIndex w1rows) w1fb [] w1combo ("AK") ∈ resolveRows w1rows w1fb [] := by
  have h := resolve_direct_and_nearest_donor w1rows w1fb [] w1combo ("AK")
    (by decide) (by decide)
  exact h.2 ["AK"] ("R20") ["US"] (mkObs ("pet") ("gasoline") ("2025-01") ("R20") (some 425))
    (by decide) (by decide) (by decide) (by decide) (by decide)

/-! ### Claim C10 — fallback rows carry the donor's row verbatim -/

/-- C10: on a fallback hit, the emitted row is the donor geography's indexed
row with only `geo_code`, `geo_display_name`, `is_fallback` and
`fallback_from_geo_code` overwritten; in particular its `price`,
`price_units`, `sector`, `source_route` and `source_series` are the donor
row's values. -/
theorem fallback_rows_copy_donor_fields (rows : List Row) (fb : List (String × List String))
    (names : List (String × String)) (c : Combo) (g : String) (r : Row) (d : String)
    (hnv : valuedAt (buildIndex rows) c.fuel c.period g = false)
    (hpick : pickFromChain (buildIndex rows) c.fuel c.period (chainFor fb g) = some (r, d)) :
    buildIndex rows (kFuelPeriodGeo c.fuel c.period d) = some r ∧
    fillRow (buildIndex rows) fb names c g =
      { r with geo_code := g, geo_display_name := displayName names g,
               is_fallback := true, fallback_from_geo_code := some d } ∧
    (fillRow (buildIndex rows) fb names c g).price = r.price ∧
    (fillRow (buildIndex rows) fb names c g).price_units = r.price_units ∧
    (fillRow (buildIndex rows) fb names c g).sector = r.sector ∧
    (fillRow (buildIndex rows) fb names c g).source_route = r.source_route ∧
    (fillRow (buildIndex rows) fb names c g).source_series = r.source_series := by
  have hdonor := pickFromChain_sound (buildIndex rows) c.fuel c.period (chainFor fb g) r d hpick
  have hfill : fillRow (buildIndex rows) fb names c g =
      { r with geo_code := g, geo_display_name := displayName names g,
               is_fallback := true, fallback_from_geo_code := some d } := by
    unfold fillRow
    unfold valuedAt at hnv
    cases hig : buildIndex rows (kFuelPeriodGeo c.fuel c.period g) with
    | none => simp [fillFallback, hpick]
    | some dr =>
      rw [hig] at hnv
      change dr.price.isSome = false at hnv
      simp [hnv, fillFallback, hpick]
  exact ⟨hdonor.1, hfill, by rw [hfill], by rw [hfill], by rw [hfill], by rw [hfill], by rw [hfill]⟩

/-- Witness for C10 at the nearest-donor scenario: the AK fallback row copies
the R20 donor's price and metadata. -/
theorem fallback_rows_copy_donor_fields_witness :
    buildIndex w1rows (kFuelPeriodGeo ("gasoline") ("2025-01") ("R20")) =
      some (mkObs ("pet") ("gasoline") ("2025-01") ("R20") (some 425)) ∧
    (fillRow (buildIndex w1rows) w1fb [] w1combo ("AK")).price = some 425 ∧
    (fillRow (buildIndex w1rows) w1fb [] w1combo ("AK")).source_series = "EMM_EPM0_PTE" := by
  have h := fallback_rows_copy_donor_fields w1rows w1fb [] w1combo ("AK")
    (mkObs ("pet") ("gasoline") ("2025-01") ("R20") (some 425)) ("R20")
    (by decide) (by decide)
  refine ⟨h.1, ?_, ?_⟩
  · rw [h.2.2.1]
    rfl
  · rw [h.2.2.2.2.2.2]
    rfl

/-! ### Claim C9 — output order -/

theorem jsLt_rev_of_ne {x y : String} (h : ¬ x = y) (hlt : jsLt x y = false) : jsLt y x = true := by
  cases hyx : jsLt y x
  · exact absurd (jsLt_conn hlt hyx) h
  · rfl

theorem strBne_comm (x y : String) : (x != y) = (y != x) := by
  simp only [bne]
  cases hxy : x == y
  · cases hyx : y == x
    · rfl
    · have hxy2 : x = y := (beq_iff_eq.mp hyx).symm
      rw [hxy2] at hxy
      simp at hxy
  · cases hyx : y == x
    · have hxy2 : x = y := beq_iff_eq.mp hxy
      rw [hxy2] at hyx
      simp at hyx
    · rfl

theorem layer_total {x y : String} {kxy kyx : Int} (hk : x = y → (kxy ≤ 0 ∨ kyx ≤ 0)) :
    (if x != y then (if jsLt x y then (-1 : Int) else 1) else kxy) ≤ 0 ∨
    (if y != x then (if jsLt y x then (-1 : Int) else 1) else kyx) ≤ 0 := by
  by_cases h : x = y
  · simpa [h] using hk h
  · have hb : (x != y) = true := by simp [h]
    have hb2 : (y != x) = true := by simp [Ne.symm h]
    rw [hb, hb2]
    cases hlt : jsLt x y
    · have := jsLt_rev_of_ne h hlt
      simp [this]
    · simp

theorem layer_trans {x y z : String} {kxy kyz kxz : Int}
    (hk : x = y → y = z → kxy ≤ 0 → kyz ≤ 0 → kxz ≤ 0)
    (hxy : (if x != y then (if jsLt x y then (-1 : Int) else 1) else kxy) ≤ 0)
    (hyz : (if y != z then (if jsLt y z then (-1 : Int) else 1) else kyz) ≤ 0) :
    (if x != z then (if jsLt x z then (-1 : Int) else 1) else kxz) ≤ 0 := by
  by_cases h1 : x = y
  · simp only [h1, bne_self_eq_false, Bool.false_eq_true, if_false] at hxy
    by_cases h2 : y = z
    · have hxz : x = z := h1.trans h2
      simp only [h2, bne_self_eq_false, Bool.false_eq_true, if_false] at hyz
      simpa [hxz] using hk h1 h2 hxy hyz
    · have hb : (y != z) = true := by simp [h2]
      rw [hb, if_pos rfl] at hyz
      cases hlt : jsLt y z
      · rw [hlt] at hyz; simp at hyz
      · have hxz : ¬ x = z := fun he => by
          rw [h1] at he
          rw [he] at hlt
          rw [jsLt_irrefl] at hlt
          exact Bool.false_ne_true hlt
        have hb2 : (x != z) = true := by simp [hxz]
        rw [hb2, if_pos rfl]
        rw [h1, hlt]
        simp
  · have hb : (x != y) = true := by simp [h1]
    rw [hb, if_pos rfl] at hxy
    cases hlt : jsLt x y
    · rw [hlt] at hxy; simp at hxy
    · by_cases h2 : y = z
      · have hxz : ¬ x = z := fun he => h1 (he.trans h2.symm)
        have hb2 : (x != z) = true := by simp [hxz]
        rw [hb2, if_pos rfl, ← h2, hlt]
        simp
      · have hb2 : (y != z) = true := by simp [h2]
        rw [hb2, if_pos rfl] at hyz
        cases hlt2 : jsLt y z
        · rw [hlt2] at hyz; simp at hyz
        · have hxz2 : jsLt x z = true := jsLt_trans hlt hlt2
          have hxz : ¬ x = z := fun he => by
            have hzy := jsLt_asymm hlt2
            rw [← he] at hzy
            rw [hlt] at hzy
            simp at hzy
          have hb3 : (x != z) = true := by simp [hxz]
          rw [hb3, if_pos rfl, hxz2]
          simp

theorem layer_total_desc {x y : String} {kxy kyx : Int} (hk : x = y → (kxy ≤ 0 ∨ kyx ≤ 0)) :
    (if x != y then (if jsLt y x then (-1 : Int) else 1) else kxy) ≤ 0 ∨
    (if y != x then (if jsLt x y then (-1 : Int) else 1) else kyx) ≤ 0 := by
  by_cases h : x = y
  · simpa [h] using hk h
  · have hb : (x != y) = true := by simp [h]
    have hb2 : (y != x) = true := by simp [Ne.symm h]
    rw [hb, hb2]
    cases hlt : jsLt y x
    · have hrev := jsLt_rev_of_ne (Ne.symm h) hlt
      simp [hrev]
    · simp

theorem layer_trans_desc {x y z : String} {kxy kyz kxz : Int}
    (hk : x = y → y = z → kxy ≤ 0 → kyz ≤ 0 → kxz ≤ 0)
    (hxy : (if x != y then (if jsLt y x then (-1 : Int) else 1) else kxy) ≤ 0)
    (hyz : (if y != z then (if jsLt z y then (-1 : Int) else 1) else kyz) ≤ 0) :
    (if x != z then (if jsLt z x then (-1 : Int) else 1) else kxz) ≤ 0 := by
  rw [strBne_comm x y] at hxy
  rw [strBne_comm y z] at hyz
  rw [strBne_comm x z]
  exact layer_trans (fun hzy hyx h1 h2 => hk hyx.symm hzy.symm h2 h1) hyz hxy

theorem stableRowSort_total (a b : Row) : stableRowSort a b ≤ 0 ∨ stableRowSort b a ≤ 0 := by
  unfold stableRowSort
  refine layer_total (fun _ => ?_)
  refine layer_total (fun _ => ?_)
  refine layer_total (fun _ => ?_)
  exact layer_total_desc (fun _ => Or.inl le_rfl)

theorem stableRowSort_trans (a b c : Row) (h1 : stableRowSort a b ≤ 0)
    (h2 : stableRowSort b c ≤ 0) : stableRowSort a c ≤ 0 := by
  unfold stableRowSort at h1 h2 ⊢
  refine layer_trans (fun _ _ hh1 hh2 => ?_) h1 h2
  refine layer_trans (fun _ _ hh1' hh2' => ?_) hh1 hh2
  refine layer_trans (fun _ _ hh1'' hh2'' => ?_) hh1' hh2'
  exact layer_trans_desc (fun _ _ _ _ => le_rfl) hh1'' hh2''

theorem rowLeB_total : ∀ a b : Row, rowLeB a b = true ∨ rowLeB b a = true := by
  intro a b
  simp only [rowLeB, decide_eq_true_eq]
  exact stableRowSort_total a b

theorem rowLeB_trans : ∀ a b c : Row, rowLeB a b = true → rowLeB b c = true →
    rowLeB a c = true := by
  intro a b c h1 h2
  simp only [rowLeB, decide_eq_true_eq] at h1 h2 ⊢
  exact stableRowSort_trans a b c h1 h2

theorem layer_le_iff {x y : String} {b : Bool} {k : Int} (hb : x = y → b = false) :
    ((if x != y then (if b then (-1 : Int) else 1) else k) ≤ 0) ↔
      (b = true ∨ (x = y ∧ k ≤ 0)) := by
  by_cases h : x = y
  · simp [h, hb h]
  · have hbne : (x != y) = true := by simp [h]
    rw [hbne, if_pos rfl]
    cases b
    · simp only [Bool.false_eq_true, if_false, false_or]
      constructor
      · intro hle; omega
      · intro hcon; exact absurd hcon.1 h
    · simp

theorem stableRowSort_le_iff (a b : Row) : stableRowSort a b ≤ 0 ↔ specLe a b := by
  unfold stableRowSort specLe
  rw [layer_le_iff (fun h => by rw [h]; exact jsLt_irrefl _)]
  rw [layer_le_iff (fun h => by rw [h]; exact jsLt_irrefl _)]
  rw [layer_le_iff (fun h => by rw [h]; exact jsLt_irrefl _)]
  rw [layer_le_iff (fun h => by rw [h]; exact jsLt_irrefl _)]
  simp

/-- C9: the engine's output is sorted by dataset ascending, fuel ascending,
geography code ascending, then period descending (`specLe` spells out that
lexicographic order in the JS string order), and — the engine being a pure
function of its inputs in this embedding — two runs on identical inputs are
identical. -/
theorem resolve_rows_sorted_deterministic (rows : List Row) (fb : List (String × List String))
    (names : List (String × String)) :
    (resolveRows rows fb names).Pairwise specLe ∧
    resolveRows rows fb names = resolveRows rows fb names := by
  refine ⟨?_, rfl⟩
  unfold resolveRows
  refine (stableSort_pairwise rowLeB rowLeB_total rowLeB_trans _).imp ?_
  intro a b hab
  exact (stableRowSort_le_iff a b).mp (by simpa [rowLeB, decide_eq_true_eq] using hab)

/-! ### Except-chain helpers -/

theorem ok_of_seq {α β : Type} {x : Except String β} {k : β → Except String α} {v : α}
    (h : (x >>= k) = .ok v) : ∃ u, x = .ok u ∧ k u = .ok v := by
  cases x with
  | error e => simp [Bind.bind, Except.bind] at h
  | ok u => exact ⟨u, rfl, by simpa [Bind.bind, Except.bind] using h⟩

theorem seq_ok_intro {α β : Type} {x : Except String β} {k : β → Except String α} {u : β} {v : α}
    (hx : x = .ok u) (hk : k u = .ok v) : (x >>= k) = .ok v := by
  rw [hx]
  simpa [Bind.bind, Except.bind] using hk

theorem assertE_ok_iff {b : Bool} {msg : String} : assertE b msg = .ok () ↔ b = true := by
  cases b <;> simp [assertE]

theorem assertE_error {b : Bool} {msg : String} (h : b = false) :
    assertE b msg = .error ("CONFIG_VALIDATION_FAILED: " ++ msg) := by
  simp [assertE, h]

/-! ### Claim C5 — fallback chain well-formedness -/

theorem checkChainEntries_ok (u : List String) :
    ∀ entries : List (String × List String), checkChainEntries u entries = .ok () →
      ∀ p ∈ entries, p.2 ≠ [] ∧ p.2.head? = some p.1 ∧ p.2.getLast? = some ("US") ∧
        ∀ e ∈ p.2, e ∈ u := by
  intro entries
  induction entries with
  | nil => intro _ p hp; simp at hp
  | cons q rest ih =>
    intro h p hp
    obtain ⟨geo, chain⟩ := q
    simp only [checkChainEntries] at h
    obtain ⟨_, _, h⟩ := ok_of_seq h
    obtain ⟨_, hlen, h⟩ := ok_of_seq h
    obtain ⟨_, hhead, h⟩ := ok_of_seq h
    obtain ⟨_, hmem, h⟩ := ok_of_seq h
    obtain ⟨_, hlast, h⟩ := ok_of_seq h
    rcases List.mem_cons.mp hp with hpq | hprest
    · subst hpq
      have hlen' : 1 ≤ chain.length := of_decide_eq_true (assertE_ok_iff.mp hlen)
      have hne : chain ≠ [] := by
        intro he; rw [he] at hlen'; simp at hlen'
      have hhead' : chain.headD "" = geo := by
        have := assertE_ok_iff.mp hhead
        simpa using this
      have hlast' : chain.getLastD "" = "US" := by
        have := assertE_ok_iff.mp hlast
        simpa using this
      refine ⟨hne, ?_, ?_, ?_⟩
      · cases chain with
        | nil => exact absurd rfl hne
        | cons a as => simpa using hhead'
      · obtain ⟨x, hx⟩ := Option.isSome_iff_exists.mp (List.getLast?_isSome.mpr hne)
        rw [List.getLastD_eq_getLast?, hx] at hlast'
        simp only [Option.getD_some] at hlast'
        rw [hx, hlast']
      · intro e he
        have hfil : chain.filter (fun v => !u.contains v) = [] := by
          have := assertE_ok_iff.mp hmem
          simpa using this
        have := List.filter_eq_nil_iff.mp hfil e he
        have hcontains : u.contains e = true := by
          cases hc : u.contains e
          · rw [hc] at this; simp at this
          · rfl
        simpa using hcontains
    · exact ih h p hprest

/-- C5: if `validateGeoFallbackMapV1` succeeds, then every chain in the
document is a non-empty list that starts with its owning geography code, ends
with the Root code `"US"`, and draws every element from the supplied
geography universe; and the chain owned by `"US"` itself is exactly
`["US"]`.  (Any document violating one of these conditions therefore cannot
validate.) -/
theorem fallback_validation_chain_shape (doc : GeoFallbackDoc) (u : List String)
    (h : validateGeoFallbackMapV1 doc u = .ok ()) :
    (∀ p ∈ doc.fallback_chain_by_geo_code, p.2 ≠ [] ∧ p.2.head? = some p.1 ∧
      p.2.getLast? = some ("US") ∧ ∀ e ∈ p.2, e ∈ u) ∧
    List.lookup ("US") doc.fallback_chain_by_geo_code = some ["US"] := by
  unfold validateGeoFallbackMapV1 at h
  obtain ⟨_, _, h⟩ := ok_of_seq h
  obtain ⟨_, _, h⟩ := ok_of_seq h
  obtain ⟨_, _, h⟩ := ok_of_seq h
  obtain ⟨_, hchains, h⟩ := ok_of_seq h
  obtain ⟨_, hus, _⟩ := ok_of_seq h
  refine ⟨checkChainEntries_ok u _ hchains, ?_⟩
  have := assertE_ok_iff.mp hus
  simpa using this

/-- Witness for C5: a consistent two-geography fallback document validates,
and the theorem yields its chain facts. -/
theorem fallback_validation_chain_shape_witness :
    validateGeoFallbackMapV1 w5doc w5universe = .ok () ∧
    List.lookup ("US") w5doc.fallback_chain_by_geo_code = some ["US"] := by
  have hok : validateGeoFallbackMapV1 w5doc w5universe = .ok () := by decide
  exact ⟨hok, (fallback_validation_chain_shape w5doc w5universe hok).2⟩

/-! ### Claim C6 — no chain-length guard exists -/

theorem c6_chain_conditions (n : Nat) :
    checkChainEntries c6universe (c6chains (n + 1)) = .ok () := by
  show (do
      assertE (("AK" : String) != "") ("geo_fallback_map_v1 invalid key")
      assertE (decide (1 ≤ (c6chain (n + 1)).length))
        ("geo_fallback_map_v1 chain for " ++ "AK" ++ " must have at least 1 item")
      assertE ((c6chain (n + 1)).headD "" == "AK")
        ("geo_fallback_map_v1 chain for " ++ "AK" ++ " must start with itself")
      assertE (((c6chain (n + 1)).filter (fun v => !c6universe.contains v)) == [])
        ("geo_fallback_map_v1 chain for " ++ "AK" ++ ": contains unsupported values: " ++
         String.intercalate (", ") ((c6chain (n + 1)).filter (fun v => !c6universe.contains v)))
      assertE ((c6chain (n + 1)).getLastD "" == "US")
        ("geo_fallback_map_v1 chain for " ++ "AK" ++ " must end with US")
      checkChainEntries c6universe [("US", ["US"])]) = Except.ok ()
  have hlen : decide (1 ≤ (c6chain (n + 1)).length) = true := by
    rw [decide_eq_true_eq]
    simp [c6chain]
  have hfil : (c6chain (n + 1)).filter (fun v => !c6universe.contains v) = [] := by
    simp [c6chain, c6universe, List.filter_replicate]
  have hlast : (c6chain (n + 1)).getLastD "" = "US" := by
    show (("AK" :: List.replicate (n + 1) ("AK") ++ ["US"]).getLastD "") = "US"
    exact List.getLastD_concat _ _ _
  refine seq_ok_intro (u := ()) (by decide) ?_
  refine seq_ok_intro (u := ()) (assertE_ok_iff.mpr hlen) ?_
  refine seq_ok_intro (u := ()) (assertE_ok_iff.mpr (by simp [c6chain])) ?_
  refine seq_ok_intro (u := ()) (assertE_ok_iff.mpr (by rw [hfil]; rfl)) ?_
  refine seq_ok_intro (u := ()) (assertE_ok_iff.mpr (by rw [hlast]; rfl)) ?_
  decide

/-- Counterexample to C6: a document whose AK chain has length 3 over a
two-element universe — longer than the universe — still validates
successfully: the validator applies no chain-length guard. -/
theorem fallback_length_guard_counterexample :
    validateGeoFallbackMapV1 (c6doc 1) c6universe = .ok () ∧
    c6universe.length < (c6chain 1).length := by
  constructor
  · decide
  · decide

/-- C6 as amended: `validateGeoFallbackMapV1` enforces no chain-length guard
at all — for every `n`, a document whose AK chain has length `n + 3`
(exceeding the two-element universe) but satisfies the self-start,
universe-membership and Root-termination conditions and whose embedded locks
are consistent validates successfully. -/
theorem fallback_no_length_guard (n : Nat) :
    validateGeoFallbackMapV1 (c6doc (n + 1)) c6universe = .ok () ∧
    c6universe.length < (c6chain (n + 1)).length := by
  constructor
  · unfold validateGeoFallbackMapV1
    refine seq_ok_intro (u := ()) (by simp only [c6doc]; decide) ?_
    refine seq_ok_intro (u := ()) (by decide) ?_
    refine seq_ok_intro (u := ()) (by simp only [c6doc, c6chains, List.map]; decide) ?_
    refine seq_ok_intro (u := ()) (c6_chain_conditions n) ?_
    refine seq_ok_intro (u := ()) (assertE_ok_iff.mpr (by simp [c6doc, c6chains, List.lookup])) ?_
    refine seq_ok_intro (u := ())
      (by simp [c6doc, c6chains, checkCountEntry, assertE, Bind.bind, Except.bind]) ?_
    refine seq_ok_intro (u := ()) (by simp [c6doc, checkFirstItemsEntry, assertE]) ?_
    simp [c6doc, checkHashEntry, assertE]
  · simp [c6universe, c6chain]

/-! ### Claim C7 — bidirectional list/mapping coverage -/

theorem seq_step {α β : Type} {x : Except String β} {u : β} (hx : x = .ok u)
    (k : β → Except String α) : (x >>= k) = k u := by
  rw [hx]; rfl

theorem error_bind {α β : Type} (e : String) (k : β → Except String α) :
    ((Except.error e : Except String β) >>= k) = .error e := rfl

theorem dedupFirstAux_mem :
    ∀ (l seen : List String) (x : String), x ∈ dedupFirstAux seen l ↔ (x ∈ l ∧ x ∉ seen) := by
  intro l
  induction l with
  | nil => intro seen x; simp [dedupFirstAux]
  | cons y ys ih =>
    intro seen x
    simp only [dedupFirstAux]
    by_cases hy : y ∈ seen
    · rw [if_pos hy, ih]
      constructor
      · rintro ⟨hx, hs⟩
        exact ⟨List.mem_cons_of_mem _ hx, hs⟩
      · rintro ⟨hx, hs⟩
        rcases List.mem_cons.mp hx with rfl | hx'
        · exact absurd hy hs
        · exact ⟨hx', hs⟩
    · rw [if_neg hy]
      simp only [List.mem_cons, ih]
      constructor
      · rintro (rfl | ⟨hx, hs⟩)
        · exact ⟨Or.inl rfl, hy⟩
        · refine ⟨Or.inr hx, fun hxs => hs (by simp [hxs])⟩
      · rintro ⟨hxy, hs⟩
        by_cases hxeq : x = y
        · exact Or.inl hxeq
        · rcases hxy with rfl | hx
          · exact Or.inl rfl
          · refine Or.inr ⟨hx, fun hxs => ?_⟩
            rcases hxs with rfl | h2
            · exact hxeq rfl
            · exact hs h2

theorem dedupFirst_mem (l : List String) (x : String) : x ∈ dedupFirst l ↔ x ∈ l := by
  simp [dedupFirst, dedupFirstAux_mem]

theorem beq_list_false_of_ne {l : List String} (h : l ≠ []) : (l == []) = false := by
  cases hb : l == []
  · rfl
  · exact absurd (beq_iff_eq.mp hb) h

theorem contains_eq_true_iff_mem {l : List String} {x : String} :
    l.contains x = true ↔ x ∈ l := by
  simp

theorem missingMapKeys_eq_nil_iff (doc : GeoAcceptListsDoc) :
    missingMapKeys doc = [] ↔
      ∀ x ∈ allAcceptedDuoareas doc, x ∈ doc.duoarea_to_geo_code.map Prod.fst := by
  unfold missingMapKeys
  rw [List.filter_eq_nil_iff]
  constructor
  · intro h x hx
    have hnx := h x hx
    cases hc : (doc.duoarea_to_geo_code.map Prod.fst).contains x
    · exact absurd (by rw [hc]; rfl) hnx
    · exact contains_eq_true_iff_mem.mp hc
  · intro h x hx
    have hc : (doc.duoarea_to_geo_code.map Prod.fst).contains x = true :=
      contains_eq_true_iff_mem.mpr (h x hx)
    rw [hc]
    simp

theorem extraMapKeys_eq_nil_iff (doc : GeoAcceptListsDoc) :
    extraMapKeys doc = [] ↔
      ∀ x ∈ doc.duoarea_to_geo_code.map Prod.fst, x ∈ allAcceptedDuoareas doc := by
  unfold extraMapKeys
  rw [List.filter_eq_nil_iff]
  constructor
  · intro h x hx
    have hnx := h x ((dedupFirst_mem _ x).mpr hx)
    cases hc : (allAcceptedDuoareas doc).contains x
    · exact absurd (by rw [hc]; rfl) hnx
    · exact contains_eq_true_iff_mem.mp hc
  · intro h x hx
    have hc : (allAcceptedDuoareas doc).contains x = true :=
      contains_eq_true_iff_mem.mpr (h x ((dedupFirst_mem _ x).mp hx))
    rw [hc]
    simp

/-- C7: under the checks that precede it (schema version, duplicate-free
lists, well-typed mapping entries), the acceptance-list validator fails
whenever the union of the three accept-lists differs, as a set, from the
mapping's key set — with a direction-specific message that names exactly the
offending identifiers (missing-mapping direction checked first) — and the
pair of coverage checks passes precisely when the two sets are equal;
moreover any successful validation implies the two sets are equal. -/
theorem accept_coverage_bidirectional (doc : GeoAcceptListsDoc)
    (h1 : doc.schema_version = 1)
    (h2 : dupItems doc.accepted_duoarea_petroleum_gnd = [])
    (h3 : dupItems doc.accepted_duoarea_petroleum_wfr = [])
    (h4 : dupItems doc.accepted_duoarea_natural_gas = [])
    (h5 : checkMappingEntries doc.duoarea_to_geo_code = .ok ()) :
    (missingMapKeys doc ≠ [] →
      validateGeoAcceptListsV1 doc = .error ("CONFIG_VALIDATION_FAILED: " ++
        ("geo_accept_lists_v1: duoarea_to_geo_code missing keys for accepted duoareas: " ++
         String.intercalate (", ") (missingMapKeys doc)))) ∧
    (missingMapKeys doc = [] → extraMapKeys doc ≠ [] →
      validateGeoAcceptListsV1 doc = .error ("CONFIG_VALIDATION_FAILED: " ++
        ("geo_accept_lists_v1: duoarea_to_geo_code contains extra keys not present in any accept-list: " ++
         String.intercalate (", ") (extraMapKeys doc)))) ∧
    ((missingMapKeys doc = [] ∧ extraMapKeys doc = []) ↔
      (∀ x, x ∈ allAcceptedDuoareas doc ↔ x ∈ doc.duoarea_to_geo_code.map Prod.fst)) ∧
    (∀ u, validateGeoAcceptListsV1 doc = .ok u →
      ∀ x, x ∈ allAcceptedDuoareas doc ↔ x ∈ doc.duoarea_to_geo_code.map Prod.fst) := by
  have e1 : assertE (doc.schema_version == 1) ("geo_accept_lists_v1: schema_version must be 1") =
      .ok () := assertE_ok_iff.mpr (by rw [h1]; rfl)
  have e2 : assertUniqueStringArray doc.accepted_duoarea_petroleum_gnd
      ("geo_accept_lists_v1.accepted_duoarea_petroleum_gnd") = .ok () := by
    unfold assertUniqueStringArray
    exact assertE_ok_iff.mpr (by rw [h2]; rfl)
  have e3 : assertUniqueStringArray doc.accepted_duoarea_petroleum_wfr
      ("geo_accept_lists_v1.accepted_duoarea_petroleum_wfr") = .ok () := by
    unfold assertUniqueStringArray
    exact assertE_ok_iff.mpr (by rw [h3]; rfl)
  have e4 : assertUniqueStringArray doc.accepted_duoarea_natural_gas
      ("geo_accept_lists_v1.accepted_duoarea_natural_gas") = .ok () := by
    unfold assertUniqueStringArray
    exact assertE_ok_iff.mpr (by rw [h4]; rfl)
  have hiff : (missingMapKeys doc = [] ∧ extraMapKeys doc = []) ↔
      (∀ x, x ∈ allAcceptedDuoareas doc ↔ x ∈ doc.duoarea_to_geo_code.map Prod.fst) := by
    rw [missingMapKeys_eq_nil_iff, extraMapKeys_eq_nil_iff]
    constructor
    · rintro ⟨ha, hb⟩ x
      exact ⟨fun hx => ha x hx, fun hx => hb x hx⟩
    · intro h
      exact ⟨fun x hx => (h x).mp hx, fun x hx => (h x).mpr hx⟩
  refine ⟨?_, ?_, hiff, ?_⟩
  · intro hne
    unfold validateGeoAcceptListsV1
    simp only [seq_step e1, seq_step e2, seq_step e3, seq_step e4, seq_step h5]
    rw [assertE_error (beq_list_false_of_ne hne)]
    exact error_bind _ _
  · intro hm hne
    have e6 : assertE (missingMapKeys doc == [])
        ("geo_accept_lists_v1: duoarea_to_geo_code missing keys for accepted duoareas: " ++
         String.intercalate (", ") (missingMapKeys doc)) = .ok () :=
      assertE_ok_iff.mpr (by rw [hm]; rfl)
    unfold validateGeoAcceptListsV1
    simp only [seq_step e1, seq_step e2, seq_step e3, seq_step e4, seq_step h5, seq_step e6]
    rw [assertE_error (beq_list_false_of_ne hne)]
    exact error_bind _ _
  · intro u hok x
    unfold validateGeoAcceptListsV1 at hok
    obtain ⟨_, _, hok⟩ := ok_of_seq hok
    obtain ⟨_, _, hok⟩ := ok_of_seq hok
    obtain ⟨_, _, hok⟩ := ok_of_seq hok
    obtain ⟨_, _, hok⟩ := ok_of_seq hok
    obtain ⟨_, _, hok⟩ := ok_of_seq hok
    obtain ⟨_, hm, hok⟩ := ok_of_seq hok
    obtain ⟨_, he, _⟩ := ok_of_seq hok
    have hm' : missingMapKeys doc = [] := beq_iff_eq.mp (assertE_ok_iff.mp hm)
    have he' : extraMapKeys doc = [] := beq_iff_eq.mp (assertE_ok_iff.mp he)
    exact hiff.mp ⟨hm', he'⟩ x

/-- Witness for C7: a document whose accepted duoarea `GAK` has no mapping
entry fails with the missing-mapping message naming `GAK`. -/
theorem accept_coverage_bidirectional_witness :
    validateGeoAcceptListsV1 w7doc = .error ("CONFIG_VALIDATION_FAILED: " ++
      ("geo_accept_lists_v1: duoarea_to_geo_code missing keys for accepted duoareas: " ++
       String.intercalate (", ") (missingMapKeys w7doc))) ∧
    missingMapKeys w7doc = ["GAK"] := by
  have h := accept_coverage_bidirectional w7doc (by decide) (by decide) (by decide) (by decide)
    (by decide)
  exact ⟨h.1 (by decide), by decide⟩

/-! ### Claim C2 — resolution completeness -/

theorem splitBar :
    ∀ (a b x y : List Char), '|' ∉ a → '|' ∉ b →
      a ++ '|' :: '|' :: x = b ++ '|' :: '|' :: y → a = b ∧ x = y := by
  intro a
  induction a with
  | nil =>
    intro b x y _ hb h
    cases b with
    | nil => simpa using h
    | cons c bs =>
      simp only [List.nil_append, List.cons_append, List.cons.injEq] at h
      exact absurd (by simp [← h.1]) hb
  | cons c as ih =>
    intro b x y ha hb h
    cases b with
    | nil =>
      simp only [List.cons_append, List.nil_append, List.cons.injEq] at h
      exact absurd (by simp [h.1]) ha
    | cons d bs =>
      simp only [List.cons_append, List.cons.injEq] at h
      obtain ⟨hcd, h2⟩ := h
      have ha' : '|' ∉ as := fun hmem => ha (List.mem_cons_of_mem _ hmem)
      have hb' : '|' ∉ bs := fun hmem => hb (List.mem_cons_of_mem _ hmem)
      obtain ⟨h3, h4⟩ := ih bs x y ha' hb' h2
      exact ⟨by rw [hcd, h3], h4⟩

theorem kFuelPeriodGeo_data (f p g : String) :
    (kFuelPeriodGeo f p g).data =
      f.data ++ '|' :: '|' :: (p.data ++ '|' :: '|' :: g.data) := by
  unfold kFuelPeriodGeo
  simp [String.data_append, List.append_assoc]

theorem kFuelPeriodGeo_inj {f p g f' p' g' : String}
    (hf : barFree f) (hf' : barFree f') (hp : barFree p) (hp' : barFree p')
    (h : kFuelPeriodGeo f p g = kFuelPeriodGeo f' p' g') : f = f' ∧ p = p' ∧ g = g' := by
  have hdata : (kFuelPeriodGeo f p g).data = (kFuelPeriodGeo f' p' g').data := by rw [h]
  rw [kFuelPeriodGeo_data, kFuelPeriodGeo_data] at hdata
  obtain ⟨h1, h2⟩ := splitBar _ _ _ _ hf hf' hdata
  obtain ⟨h3, h4⟩ := splitBar _ _ _ _ hp hp' h2
  exact ⟨string_data_inj h1, string_data_inj h3, string_data_inj h4⟩

/-- A row served by the index is an input row, has non-falsy key fields, and
carries exactly the key it is indexed under. -/
theorem buildIndex_row_props {rows : List Row} {k : String} {r : Row}
    (h : buildIndex rows k = some r) :
    r ∈ rows ∧ validRowFields r = true ∧ rowKey r = k := by
  rw [buildIndex_characterization] at h
  cases hfv : firstValuedHit rows k with
  | some rv =>
    rw [hfv] at h
    injection h with h
    subst h
    have hp := List.find?_some hfv
    have hm := List.mem_of_find?_eq_some hfv
    simp only [Bool.and_eq_true, beq_iff_eq] at hp
    exact ⟨hm, hp.1.1, hp.1.2⟩
  | none =>
    rw [hfv] at h
    have hp := List.find?_some h
    have hm := List.mem_of_find?_eq_some h
    simp only [Bool.and_eq_true, beq_iff_eq] at hp
    exact ⟨hm, hp.1, hp.2⟩

/-- Every combo in the enumeration is sourced from an input row with
non-falsy dataset, fuel and period. -/
theorem buildCombosAux_src :
    ∀ (rows : List Row) (acc : List Combo) (c : Combo), c ∈ buildCombosAux acc rows →
      c ∈ acc ∨ ∃ r ∈ rows, r.dataset = c.dataset ∧ r.fuel = c.fuel ∧ r.period = c.period ∧
        r.fuel ≠ "" ∧ r.period ≠ "" ∧ r.dataset ≠ "" := by
  intro rows
  induction rows with
  | nil => intro acc c h; exact Or.inl h
  | cons r rest ih =>
    intro acc c h
    simp only [buildCombosAux] at h
    by_cases hskip : (r.fuel == "" || r.period == "" || r.dataset == "") = true
    · rw [if_pos hskip] at h
      rcases ih acc c h with hacc | ⟨r', hr', hfields⟩
      · exact Or.inl hacc
      · exact Or.inr ⟨r', List.mem_cons_of_mem _ hr', hfields⟩
    · rw [if_neg hskip] at h
      have hne : r.fuel ≠ "" ∧ r.period ≠ "" ∧ r.dataset ≠ "" := by
        simp only [Bool.or_eq_true, beq_iff_eq, not_or] at hskip
        exact ⟨hskip.1.1, hskip.1.2, hskip.2⟩
      by_cases hdup : (acc.any (fun c0 => comboKeyC c0 == comboKeyOf r.dataset r.fuel r.period)) = true
      · rw [if_pos hdup] at h
        rcases ih acc c h with hacc | ⟨r', hr', hfields⟩
        · exact Or.inl hacc
        · exact Or.inr ⟨r', List.mem_cons_of_mem _ hr', hfields⟩
      · rw [if_neg hdup] at h
        rcases ih _ c h with hacc | ⟨r', hr', hfields⟩
        · rcases List.mem_append.mp hacc with hacc' | hnew
          · exact Or.inl hacc'
          · have hcnew := List.mem_singleton.mp hnew
            refine Or.inr ⟨r, List.mem_cons_self r rest, ?_⟩
            rw [hcnew]
            exact ⟨rfl, rfl, rfl, hne.1, hne.2.1, hne.2.2⟩
        · exact Or.inr ⟨r', List.mem_cons_of_mem _ hr', hfields⟩

theorem buildCombos_src {rows : List Row} {c : Combo} (h : c ∈ buildCombos rows) :
    ∃ r ∈ rows, r.dataset = c.dataset ∧ r.fuel = c.fuel ∧ r.period = c.period ∧
      r.fuel ≠ "" ∧ r.period ≠ "" ∧ r.dataset ≠ "" := by
  rcases buildCombosAux_src rows [] c h with hacc | hsrc
  · simp at hacc
  · exact hsrc

/-- The combo keys of the enumeration are pairwise distinct. -/
theorem buildCombosAux_keys_nodup :
    ∀ (rows : List Row) (acc : List Combo), (acc.map comboKeyC).Nodup →
      ((buildCombosAux acc rows).map comboKeyC).Nodup := by
  intro rows
  induction rows with
  | nil => intro acc h; exact h
  | cons r rest ih =>
    intro acc h
    simp only [buildCombosAux]
    by_cases hskip : (r.fuel == "" || r.period == "" || r.dataset == "") = true
    · rw [if_pos hskip]; exact ih acc h
    · rw [if_neg hskip]
      by_cases hdup : (acc.any (fun c0 => comboKeyC c0 == comboKeyOf r.dataset r.fuel r.period)) = true
      · rw [if_pos hdup]; exact ih acc h
      · rw [if_neg hdup]
        refine ih _ ?_
        rw [List.map_append]
        rw [List.nodup_append]
        refine ⟨h, by simp, ?_⟩
        intro x hx
        simp only [List.map_cons, List.map_nil, List.mem_singleton]
        intro hxk
        have : acc.any (fun c0 => comboKeyC c0 == comboKeyOf r.dataset r.fuel r.period) = true := by
          rw [List.any_eq_true]
          obtain ⟨c0, hc0, hc0k⟩ := List.mem_map.mp hx
          refine ⟨c0, hc0, ?_⟩
          rw [hc0k, hxk]
          simp [comboKeyC]
        exact hdup this

theorem buildCombos_pairwise_keys (rows : List Row) :
    (buildCombos rows).Pairwise (fun c1 c2 => comboKeyC c1 ≠ comboKeyC c2) := by
  have h := buildCombosAux_keys_nodup rows [] (by simp)
  rw [List.Nodup, List.pairwise_map] at h
  exact h

/-- Field characterization of the fallback arm under the disambiguation
hypotheses. -/
theorem fillFallback_key_fields (rows : List Row) (fb : List (String × List String))
    (names : List (String × String)) (c : Combo) (g : String)
    (H1 : ∀ r1 ∈ rows, ∀ r2 ∈ rows, r1.fuel = r2.fuel → r1.period = r2.period →
      r1.dataset = r2.dataset)
    (H2 : ∀ r ∈ rows, barFree r.fuel ∧ barFree r.period)
    (src : Row) (hsrc : src ∈ rows) (hsd : src.dataset = c.dataset)
    (hsf : src.fuel = c.fuel) (hsp : src.period = c.period) :
    (fillFallback (buildIndex rows) fb names c g).dataset = c.dataset ∧
    (fillFallback (buildIndex rows) fb names c g).fuel = c.fuel ∧
    (fillFallback (buildIndex rows) fb names c g).period = c.period ∧
    (fillFallback (buildIndex rows) fb names c g).geo_code = g := by
  have hcf : barFree c.fuel := hsf ▸ (H2 src hsrc).1
  have hcp : barFree c.period := hsp ▸ (H2 src hsrc).2
  unfold fillFallback
  cases hpk : pickFromChain (buildIndex rows) c.fuel c.period (chainFor fb g) with
  | some pr =>
    obtain ⟨r0, d⟩ := pr
    obtain ⟨hidx, _⟩ := pickFromChain_sound (buildIndex rows) c.fuel c.period _ r0 d hpk
    obtain ⟨hmem, _, hkey⟩ := buildIndex_row_props hidx
    obtain ⟨hf, hp, _⟩ := kFuelPeriodGeo_inj (H2 r0 hmem).1 hcf (H2 r0 hmem).2 hcp hkey
    have hd : r0.dataset = c.dataset := by
      have := H1 r0 hmem src hsrc (by rw [hf, hsf]) (by rw [hp, hsp])
      rw [this, hsd]
    simp [hd, hf, hp]
  | none => simp

/-- Under the disambiguation hypotheses, every row the fill loop emits for
`(c, g)` carries exactly `c`'s dataset, fuel and period and geography `g`. -/
theorem fillRow_key_fields (rows : List Row) (fb : List (String × List String))
    (names : List (String × String)) (c : Combo) (g : String)
    (H1 : ∀ r1 ∈ rows, ∀ r2 ∈ rows, r1.fuel = r2.fuel → r1.period = r2.period →
      r1.dataset = r2.dataset)
    (H2 : ∀ r ∈ rows, barFree r.fuel ∧ barFree r.period)
    (hc : c ∈ buildCombos rows) :
    (fillRow (buildIndex rows) fb names c g).dataset = c.dataset ∧
    (fillRow (buildIndex rows) fb names c g).fuel = c.fuel ∧
    (fillRow (buildIndex rows) fb names c g).period = c.period ∧
    (fillRow (buildIndex rows) fb names c g).geo_code = g := by
  obtain ⟨src, hsrc, hsd, hsf, hsp, _, _, _⟩ := buildCombos_src hc
  have hcf : barFree c.fuel := hsf ▸ (H2 src hsrc).1
  have hcp : barFree c.period := hsp ▸ (H2 src hsrc).2
  unfold fillRow
  cases hig : buildIndex rows (kFuelPeriodGeo c.fuel c.period g) with
  | some dr =>
    by_cases hs : dr.price.isSome = true
    · obtain ⟨hdmem, _, hdkey⟩ := buildIndex_row_props hig
      obtain ⟨hdf, hdp, hdg⟩ := kFuelPeriodGeo_inj (H2 dr hdmem).1 hcf (H2 dr hdmem).2 hcp hdkey
      have hdd : dr.dataset = c.dataset := by
        have := H1 dr hdmem src hsrc (by rw [hdf, hsf]) (by rw [hdp, hsp])
        rw [this, hsd]
      simp [hs, hdd, hdf, hdp, hdg]
    · have hs' : dr.price.isSome = false := by simpa using hs
      simp only [hs', Bool.false_eq_true, if_false]
      exact fillFallback_key_fields rows fb names c g H1 H2 src hsrc hsd hsf hsp
  | none => exact fillFallback_key_fields rows fb names c g H1 H2 src hsrc hsd hsf hsp

theorem fillRow_matches_iff (rows : List Row) (fb : List (String × List String))
    (names : List (String × String))
    (H1 : ∀ r1 ∈ rows, ∀ r2 ∈ rows, r1.fuel = r2.fuel → r1.period = r2.period →
      r1.dataset = r2.dataset)
    (H2 : ∀ r ∈ rows, barFree r.fuel ∧ barFree r.period)
    (c c' : Combo) (g g' : String) (hc' : c' ∈ buildCombos rows) :
    matchesComboGeo c g (fillRow (buildIndex rows) fb names c' g') = true ↔
      (c'.dataset = c.dataset ∧ c'.fuel = c.fuel ∧ c'.period = c.period ∧ g' = g) := by
  obtain ⟨h1, h2, h3, h4⟩ := fillRow_key_fields rows fb names c' g' H1 H2 hc'
  unfold matchesComboGeo
  rw [h1, h2, h3, h4]
  simp [Bool.and_eq_true, beq_iff_eq, and_assoc]

theorem countP_flatMap_zero {p : Row → Bool} {f : Combo → List Row} :
    ∀ L : List Combo, (∀ c' ∈ L, (f c').countP p = 0) → (L.flatMap f).countP p = 0 := by
  intro L
  induction L with
  | nil => simp
  | cons a L' ih =>
    intro h
    rw [List.flatMap_cons, List.countP_append, h a (List.mem_cons_self _ _),
      ih (fun c' hc' => h c' (List.mem_cons_of_mem _ hc'))]

theorem countP_flatMap_one {p : Row → Bool} {f : Combo → List Row} {c : Combo} :
    ∀ L : List Combo, L.Pairwise (fun a b => comboKeyC a ≠ comboKeyC b) → c ∈ L →
      (∀ c' ∈ L, comboKeyC c' ≠ comboKeyC c → (f c').countP p = 0) →
      (f c).countP p = 1 → (L.flatMap f).countP p = 1 := by
  intro L
  induction L with
  | nil => intro _ hmem; simp at hmem
  | cons a L' ih =>
    intro hpw hmem hzero hone
    rw [List.flatMap_cons, List.countP_append]
    rw [List.pairwise_cons] at hpw
    rcases List.mem_cons.mp hmem with rfl | hmem'
    · have hz : (L'.flatMap f).countP p = 0 :=
        countP_flatMap_zero L' (fun c' hc' =>
          hzero c' (List.mem_cons_of_mem _ hc') (Ne.symm (hpw.1 c' hc')))
      rw [hone, hz]
    · have ha0 : (f a).countP p = 0 := hzero a (List.mem_cons_self _ _) (hpw.1 c hmem')
      rw [ha0, ih hpw.2 hmem'
        (fun c' hc' hk => hzero c' (List.mem_cons_of_mem _ hc') hk) hone]

/-- Counterexample to C2 as stated: two datasets share the `(fuel, period)`
pair `("f","p")`; the index is keyed only on `(fuel, period, geo)`, so the
dataset-B pass direct-hits the first (dataset-A) row and emits it — the
output has no row at all for `(dsB, f, p, US)` although `(dsB, f, p)` is a
discovered combo and `US` is in the enumerated universe. -/
theorem resolution_completeness_counterexample :
    x2combo ∈ buildCombos x2rows ∧ ("US") ∈ allGeoCodes x2fb ∧
    (resolveRows x2rows x2fb []).countP (matchesComboGeo x2combo ("US")) = 0 := by
  refine ⟨by decide, by decide, by decide⟩

/-- C2 as amended: provided that (i) the `(fuel, period)` pair of an input
row determines its dataset, (ii) no row's fuel or period contains the `'|'`
character (so the composite `fuel||period||geo` index key is unambiguous),
and (iii) the fallback map's keys are distinct (as JS object keys are), the
output contains exactly one FilledRow for every discovered combo and every
enumerated geography — never zero, never more than one — and a pair with no
non-null value anywhere in its chain is still emitted, as a row with price
null, `is_fallback = true` and `fallback_from = null`, never omitted. -/
theorem resolution_completeness_amended (rows : List Row) (fb : List (String × List String))
    (names : List (String × String))
    (H1 : ∀ r1 ∈ rows, ∀ r2 ∈ rows, r1.fuel = r2.fuel → r1.period = r2.period →
      r1.dataset = r2.dataset)
    (H2 : ∀ r ∈ rows, barFree r.fuel ∧ barFree r.period)
    (H3 : (fb.map Prod.fst).Nodup)
    (c : Combo) (g : String) (hc : c ∈ buildCombos rows) (hg : g ∈ allGeoCodes fb) :
    (resolveRows rows fb names).countP (matchesComboGeo c g) = 1 ∧
    (valuedAt (buildIndex rows) c.fuel c.period g = false →
     pickFromChain (buildIndex rows) c.fuel c.period (chainFor fb g) = none →
     fillRow (buildIndex rows) fb names c g =
       { dataset := c.dataset, fuel := c.fuel, sector := c.sector, geo_code := g,
         geo_display_name := displayName names g, period := c.period, price := none,
         price_units := c.price_units, source_route := "", source_series := "",
         is_fallback := true, fallback_from_geo_code := none }) := by
  constructor
  · unfold resolveRows
    rw [(stableSort_perm rowLeB _).countP_eq]
    apply countP_flatMap_one (buildCombos rows) (buildCombos_pairwise_keys rows) hc
    · intro c' hc' hk
      rw [List.countP_map, List.countP_eq_zero]
      intro g' _
      intro hmatch
      have htriple := (fillRow_matches_iff rows fb names H1 H2 c c' g g' hc').mp hmatch
      refine hk ?_
      unfold comboKeyC comboKeyOf
      rw [htriple.1, htriple.2.1, htriple.2.2.1]
    · rw [List.countP_map]
      have hnd : (allGeoCodes fb).Nodup := ((jsSortStrings_perm _).nodup_iff).mpr H3
      have hcongr : (allGeoCodes fb).countP
          (fun g' => matchesComboGeo c g (fillRow (buildIndex rows) fb names c g')) =
          (allGeoCodes fb).countP (fun g' => g' == g) := by
        apply List.countP_congr
        intro g' _
        rw [fillRow_matches_iff rows fb names H1 H2 c c g g' hc]
        simp
      have hcount : (allGeoCodes fb).countP (fun g' => g' == g) = List.count g (allGeoCodes fb) := by
        simp [List.count]
      rw [show ((fun r => matchesComboGeo c g r) ∘
          (fillRow (buildIndex rows) fb names c)) =
          (fun g' => matchesComboGeo c g (fillRow (buildIndex rows) fb names c g')) from rfl]
      rw [hcongr, hcount]
      exact List.count_eq_one_of_mem hnd hg
  · intro hnv hpick
    unfold fillRow
    unfold valuedAt at hnv
    cases hig : buildIndex rows (kFuelPeriodGeo c.fuel c.period g) with
    | none => simp [fillFallback, hpick]
    | some dr =>
      rw [hig] at hnv
      change dr.price.isSome = false at hnv
      simp [hnv, fillFallback, hpick]

/-- Witness for C2 (amended): in the nearest-donor scenario every hypothesis
holds and the output carries exactly one row for the discovered combo and
geography AK. -/
theorem resolution_completeness_amended_witness :
    (resolveRows w1rows w1fb []).countP (matchesComboGeo w1combo ("AK")) = 1 := by
  have h := resolution_completeness_amended w1rows w1fb [] (by decide) (by decide) (by decide)
    w1combo ("AK") (by decide) (by decide)
  exact h.1

end EnergyCalculators

